import Mathlib

/-!
Verification of the BayStateApp scraper backend core against its
natural-language specification.

Each Python module relevant to the claims is shallowly embedded:
pure functions become Lean functions, the stateful retry executor and
scheduler become explicit state passing / step relations, Python floats
are modelled as exact rationals, and Python string operations
(substring tests, lowercasing, slicing, regex search) are implemented
over Lean strings and lists.
-/

set_option maxHeartbeats 1000000
set_option maxRecDepth 8000

/-! ### Python string helpers

`pyIn a b` is Python's `a in b` for strings (contiguous substring).
`strLower` is `str.lower()` restricted to ASCII, which is all the
source ever compares against.
-/

def pyIn (needle hay : String) : Bool :=
  decide (needle.toList <:+: hay.toList)

def strLower (s : String) : String :=
  String.mk (s.toList.map Char.toLower)

/-- Python's `l[-n:]` slice on lists: the last `n` elements, except that
`l[-0:]` is the whole list. -/
def pyLastSlice (n : ℕ) (l : List α) : List α :=
  if n = 0 then l else l.drop (l.length - n)

/-- Base-10 rendering of a natural number (`str(n)` in Python), via a
fuel-based recursion so that the kernel can evaluate it. -/
def natDigitsAux : ℕ → ℕ → List Char
  | 0, _ => []
  | fuel + 1, n =>
    if n < 10 then [Char.ofNat (48 + n)]
    else natDigitsAux fuel (n / 10) ++ [Char.ofNat (48 + n % 10)]

def natRepr (n : ℕ) : String :=
  String.mk (natDigitsAux (n + 1) n)

theorem pyLastSlice_length_le (n : ℕ) (l : List α) (hn : 0 < n) :
    (pyLastSlice n l).length ≤ n := by
  unfold pyLastSlice
  rw [if_neg (Nat.pos_iff_ne_zero.mp hn)]
  simp only [List.length_drop]
  omega

/-! ## scrapers/models/result.py — SKU result model -/

inductive SkuType
  | test
  | fake
  deriving DecidableEq, Repr

inductive SkuOutcome
  | success
  | no_results
  | not_found
  | error
  deriving DecidableEq, Repr

/-- `calculate_is_passing` from `scrapers/models/result.py`: fake SKUs
pass exactly on `no_results`, test SKUs exactly on `success`. -/
def calculate_is_passing (sku_type : SkuType) (outcome : SkuOutcome) : Bool :=
  if sku_type = SkuType.fake then
    outcome = SkuOutcome.no_results
  else
    outcome = SkuOutcome.success

/-- `SkuResult` dataclass; `data`/`error`/`duration_seconds` carried as
options, `data` kept abstract as a string map is irrelevant here. -/
structure SkuResult where
  sku : String
  sku_type : SkuType
  outcome : SkuOutcome
  is_passing : Bool
  error : Option String
  duration_seconds : Option ℚ

/-- Constructing a `SkuResult`: `__post_init__` derives `is_passing`
from `sku_type` and `outcome`; callers cannot supply it. -/
def mkSkuResult (sku : String) (sku_type : SkuType) (outcome : SkuOutcome)
    (error : Option String) (duration_seconds : Option ℚ) : SkuResult :=
  { sku := sku
    sku_type := sku_type
    outcome := outcome
    is_passing := calculate_is_passing sku_type outcome
    error := error
    duration_seconds := duration_seconds }

/-! ## scrapers/exceptions.py — exception hierarchy and classification -/

/-- The concrete `ScraperError` subclasses that appear in the source.
Each Python class carries a class-level `retryable` flag, embedded in
`retryableKind` below. -/
inductive ScraperErrorKind
  | workflowExecutionError
  | networkError
  | timeoutError
  | elementNotFoundError
  | pageLoadError
  | staleElementError
  | rateLimitError
  | captchaError
  | accessDeniedError
  | sessionExpiredError
  | configurationError
  | selectorError
  | authenticationError
  | pageNotFoundError
  | noResultsError
  | browserError
  | circuitBreakerOpenError
  | maxRetriesExceededError
  deriving DecidableEq, Repr

/-- The class-level `retryable` flag of each `ScraperError` subclass:
`RetryableError` descendants and `WorkflowExecutionError` are `True`,
`NonRetryableError` descendants are `False`. -/
def retryableKind : ScraperErrorKind → Bool
  | .workflowExecutionError => true
  | .networkError => true
  | .timeoutError => true
  | .elementNotFoundError => true
  | .pageLoadError => true
  | .staleElementError => true
  | .rateLimitError => true
  | .captchaError => true
  | .accessDeniedError => true
  | .sessionExpiredError => true
  | .configurationError => false
  | .selectorError => false
  | .authenticationError => false
  | .pageNotFoundError => false
  | .noResultsError => false
  | .browserError => false
  | .circuitBreakerOpenError => false
  | .maxRetriesExceededError => false

/-- `ErrorContext` (fields used by `_format_message`; `step_index`,
`selector`, `url` and `extra` never influence any claim-relevant path
and are omitted). -/
structure ErrorContext where
  site_name : Option String := none
  action : Option String := none
  sku : Option String := none
  retry_count : ℕ := 0
  max_retries : ℕ := 1

/-- An embedded `ScraperError` instance: its class plus the `message`
attribute and the context it was constructed with. -/
structure ScraperError where
  kind : ScraperErrorKind
  message : String
  context : ErrorContext

/-- `ScraperError._format_message`: the message joined with the context
parts present, separated by " | ". `str(error)` returns this. -/
def formatMessage (e : ScraperError) : String :=
  let parts := [e.message]
  let parts := parts ++ (match e.context.site_name with
    | some s => ["site=" ++ s]
    | none => [])
  let parts := parts ++ (match e.context.action with
    | some a => ["action=" ++ a]
    | none => [])
  let parts := parts ++ (match e.context.sku with
    | some k => ["sku=" ++ k]
    | none => [])
  let parts := parts ++ (if e.context.retry_count > 0 then
      ["retry=" ++ natRepr e.context.retry_count ++ "/" ++
        natRepr e.context.max_retries]
    else [])
  String.intercalate " | " parts

/-- A raw Python exception as seen by `classify_exception`: its type
name and its `str()` rendering. -/
structure PyException where
  ty : String
  msg : String

/-- `classify_exception` from `scrapers/exceptions.py`: maps a generic
exception to a `ScraperError` subclass by type-name and lower-cased
message substring tests, in source order. -/
def classifyException (exc : PyException) (ctx : ErrorContext) : ScraperError :=
  let s := strLower exc.msg
  let t := exc.ty
  if pyIn "Timeout" t || pyIn "timeout" s then
    ⟨.timeoutError, "Operation timed out", ctx⟩
  else if pyIn "NoSuchElement" t || (pyIn "element" s && pyIn "not found" s) then
    ⟨.elementNotFoundError, "Element not found", ctx⟩
  else if pyIn "StaleElement" t || pyIn "stale" s then
    ⟨.staleElementError, "Element reference is stale", ctx⟩
  else if pyIn "WebDriver" t || pyIn "browser" s then
    (if pyIn "net::" s || pyIn "connection" s then
      ⟨.networkError, "Network error", ctx⟩
    else if pyIn "session" s && (pyIn "deleted" s || pyIn "invalid" s) then
      ⟨.browserError, "Browser session invalid", ctx⟩
    else
      ⟨.pageLoadError, "WebDriver error", ctx⟩)
  else if pyIn "rate limit" s || pyIn "too many requests" s || pyIn "throttl" s then
    ⟨.rateLimitError, "Rate limited", ctx⟩
  else if pyIn "captcha" s || pyIn "recaptcha" s || pyIn "robot" s then
    ⟨.captchaError, "CAPTCHA detected", ctx⟩
  else if pyIn "403" s || pyIn "forbidden" s || pyIn "access denied" s || pyIn "blocked" s then
    ⟨.accessDeniedError, "Access denied", ctx⟩
  else if pyIn "404" s || pyIn "not found" s then
    ⟨.pageNotFoundError, "Page not found", ctx⟩
  else if pyIn "no results" s || pyIn "no products" s || pyIn "empty" s then
    ⟨.noResultsError, "No results found", ctx⟩
  else if pyIn "timeout" s || pyIn "timed out" s then
    ⟨.timeoutError, "Operation timed out", ctx⟩
  else if pyIn "connection" s || pyIn "network" s || pyIn "dns" s then
    ⟨.networkError, "Network error", ctx⟩
  else
    ⟨.workflowExecutionError, exc.msg, ctx⟩

/-- `is_retryable` applied to a `ScraperError`: the class flag. -/
def isRetryable (e : ScraperError) : Bool :=
  retryableKind e.kind

/-! ## core/failure_classifier.py — FailureType (used by the retry
executor's `_map_to_failure_type`) -/

inductive FailureType
  | NO_RESULTS
  | LOGIN_FAILED
  | CAPTCHA_DETECTED
  | RATE_LIMITED
  | PAGE_NOT_FOUND
  | ACCESS_DENIED
  | NETWORK_ERROR
  | ELEMENT_MISSING
  | TIMEOUT
  deriving DecidableEq, Repr

/-! ## core/retry_executor.py — circuit breaker -/

inductive CircuitState
  | closed
  | open_
  | half_open
  deriving DecidableEq, Repr

structure CircuitBreakerConfig where
  failure_threshold : ℕ := 5
  success_threshold : ℕ := 2
  timeout_seconds : ℚ := 60
  half_open_max_calls : ℕ := 3

/-- The default `CircuitBreakerConfig()` used when none is supplied. -/
def defaultCircuitConfig : CircuitBreakerConfig := {}

structure CircuitBreakerState where
  state : CircuitState := .closed
  failure_count : ℕ := 0
  success_count : ℕ := 0
  last_failure_time : Option ℚ := none
  half_open_calls : ℕ := 0
  deriving DecidableEq, Repr

/-- A fresh `CircuitBreakerState()` (what `_get_circuit_state` creates
for an unseen site). -/
def initialCircuitState : CircuitBreakerState := {}

/-- `RetryExecutor._check_circuit_breaker`, with `time.time()` passed in
as `now`.  Returns whether the request is allowed together with the
(possibly updated) breaker state.  Python's `if state.last_failure_time:`
is a truthiness test: it is false both for `None` and for `0.0`. -/
def checkCircuitBreaker (cfg : CircuitBreakerConfig) (now : ℚ)
    (st : CircuitBreakerState) : Bool × CircuitBreakerState :=
  match st.state with
  | .closed => (true, st)
  | .open_ =>
    match st.last_failure_time with
    | some t =>
      if t ≠ 0 then
        if now - t ≥ cfg.timeout_seconds then
          (true, { st with state := .half_open, half_open_calls := 0 })
        else (false, st)
      else (false, st)
    | none => (false, st)
  | .half_open =>
    if st.half_open_calls < cfg.half_open_max_calls then
      (true, { st with half_open_calls := st.half_open_calls + 1 })
    else (false, st)

/-- `RetryExecutor._update_circuit_breaker_success`. -/
def updateCircuitBreakerSuccess (cfg : CircuitBreakerConfig)
    (st : CircuitBreakerState) : CircuitBreakerState :=
  match st.state with
  | .half_open =>
    let st := { st with success_count := st.success_count + 1 }
    if st.success_count ≥ cfg.success_threshold then
      { st with state := .closed, failure_count := 0, success_count := 0 }
    else st
  | .closed => { st with failure_count := st.failure_count - 1 }
  | .open_ => st

/-- `RetryExecutor._update_circuit_breaker_failure`, with `time.time()`
passed in as `now`.  Called for every non-retryable error and for every
exhausted-retries failure, with no exemption for any failure kind. -/
def updateCircuitBreakerFailure (cfg : CircuitBreakerConfig) (now : ℚ)
    (st : CircuitBreakerState) : CircuitBreakerState :=
  let st := { st with failure_count := st.failure_count + 1,
                      last_failure_time := some now }
  match st.state with
  | .half_open => { st with state := .open_, success_count := 0 }
  | .closed =>
    if st.failure_count ≥ cfg.failure_threshold then
      { st with state := .open_ }
    else st
  | .open_ => st

/-! ## core/retry_executor.py — execute_with_retry -/

/-- `RetryExecutor._map_to_failure_type`: isinstance checks on the
error class, then substring patterns on `str(error).lower()`. -/
def mapToFailureType (e : ScraperError) : FailureType :=
  if e.kind = .rateLimitError then .RATE_LIMITED
  else if e.kind = .captchaError then .CAPTCHA_DETECTED
  else if e.kind = .accessDeniedError then .ACCESS_DENIED
  else
    let s := strLower (formatMessage e)
    if pyIn "element" s then .ELEMENT_MISSING
    else if pyIn "login" s || pyIn "auth" s then .LOGIN_FAILED
    else if pyIn "no results" s || pyIn "not found" s then .NO_RESULTS
    else .NETWORK_ERROR

/-- `RetryResult` (the operation's return value itself is irrelevant to
every claim and is not carried). -/
structure RetryResult where
  success : Bool
  error : Option ScraperError := none
  attempts : ℕ := 0
  total_delay : ℚ := 0
  final_failure_type : Option FailureType := none
  cancelled : Bool := false

/-- Outcome of one invocation of the supplied operation: it either
returns or raises a Python exception. -/
inductive OpOutcome
  | ok
  | raises (exc : PyException)

/-- The environment a single `execute_with_retry` call runs in.
`op n` is the outcome of the n-th invocation of `operation`;
`recovery ft` is the registered recovery handler for failure type `ft`
(if any), `recovery ft n` its result on its n-th consultation (a
handler that raises behaves exactly like one returning `False`);
`stopEvent n` is whether `stop_event.is_set()` at the n-th loop pass;
`delay n` abstracts the adaptive-config delay plus jitter computed at
the n-th loop pass.  Analytics recording (`_record_success` /
`_record_failure`) has no effect on control flow and is omitted. -/
structure RetryEnv where
  op : ℕ → OpOutcome
  recovery : FailureType → Option (ℕ → Bool)
  stopEvent : ℕ → Bool
  delay : ℕ → ℚ

/-- The `while attempt <= effective_max_retries` loop of
`execute_with_retry`, as a fuel-indexed recursion: one unit of fuel per
loop pass, `none` when the fuel runs out before the loop returns.
Returns the `RetryResult`, the number of times `operation` was invoked,
and the site's circuit-breaker state after the call. -/
def retryLoop (env : RetryEnv) (cfg : CircuitBreakerConfig) (now : ℚ)
    (ctx : ErrorContext) (maxR : ℕ) :
    ℕ → ℕ → ℚ → ℕ → Option ScraperError → Option FailureType →
    CircuitBreakerState → Option (RetryResult × ℕ × CircuitBreakerState)
  | 0, _, _, _, _, _, _ => none
  | fuel + 1, attempt, total_delay, iter, lastError, lastFT, cb =>
    if attempt > maxR then
      -- the "should not reach here" tail after the loop
      some ({ success := false, error := lastError, attempts := attempt,
              total_delay := total_delay, final_failure_type := lastFT }, iter, cb)
    else
      let ctx := { ctx with retry_count := attempt, max_retries := maxR }
      match env.op iter with
      | .ok =>
        some ({ success := true, attempts := attempt + 1,
                total_delay := total_delay },
              iter + 1, updateCircuitBreakerSuccess cfg cb)
      | .raises exc =>
        let e := classifyException exc ctx
        let ft := mapToFailureType e
        if ¬ isRetryable e then
          some ({ success := false, error := some e, attempts := attempt + 1,
                  total_delay := total_delay, final_failure_type := some ft },
                iter + 1, updateCircuitBreakerFailure cfg now cb)
        else if attempt ≥ maxR then
          some ({ success := false,
                  error := some ⟨.maxRetriesExceededError,
                    "Max retries exceeded: " ++ e.message, ctx⟩,
                  attempts := attempt + 1, total_delay := total_delay,
                  final_failure_type := some ft },
                iter + 1, updateCircuitBreakerFailure cfg now cb)
        else if (env.recovery ft).elim false (fun h => h iter) then
          -- recovery succeeded: retry without incrementing `attempt`
          retryLoop env cfg now ctx maxR fuel attempt total_delay (iter + 1)
            (some e) (some ft) cb
        else
          let d := env.delay iter
          let total_delay := total_delay + d
          if env.stopEvent iter then
            some ({ success := false, error := some e, attempts := attempt + 1,
                    total_delay := total_delay, final_failure_type := some ft,
                    cancelled := true }, iter + 1, cb)
          else
            retryLoop env cfg now ctx maxR fuel (attempt + 1) total_delay
              (iter + 1) (some e) (some ft) cb

/-- `RetryExecutor.execute_with_retry` for one site: check the circuit
breaker, then run the retry loop.  `maxRetries` is the caller's
`max_retries` override, `configMaxRetries` the adaptive config's
`max_retries` used when the override is `None`. -/
def executeWithRetry (env : RetryEnv) (cfg : CircuitBreakerConfig)
    (now : ℚ) (ctx : ErrorContext) (maxRetries : Option ℕ)
    (configMaxRetries : ℕ) (fuel : ℕ) (cb : CircuitBreakerState) :
    Option (RetryResult × ℕ × CircuitBreakerState) :=
  let checked := checkCircuitBreaker cfg now cb
  if ¬ checked.1 then
    some ({ success := false,
            error := some ⟨.circuitBreakerOpenError,
              "Circuit breaker open", ctx⟩,
            attempts := 0 }, 0, checked.2)
  else
    retryLoop env cfg now ctx (maxRetries.getD configMaxRetries) fuel
      0 0 0 none none checked.2

/-! ## core/events.py — ScraperEvent and EventBus -/

/-- A `ScraperEvent` (fields relevant to buffering and querying;
`severity` and `data` never influence buffer membership and are
omitted). -/
structure ScraperEvent where
  event_type : String
  timestamp : String
  job_id : Option String
  event_id : String
  deriving DecidableEq, Repr

/-- Python truthiness of an optional string (`if job_id:`): `None` and
the empty string are falsy. -/
def pyTruthyStr : Option String → Bool
  | none => false
  | some s => s ≠ ""

/-- The `EventBus` buffering state: the global buffer `_events`, the
per-job buffers `_job_events` (a dict, modelled as an association
list), and `_job_order` (insertion/LRU order of job ids).  Subscribers
and the optional JSON-lines persistence have no effect on the buffers
and are omitted. -/
structure EventBus where
  events : List ScraperEvent := []
  buffer_size : ℕ := 500
  max_jobs : ℕ := 100
  job_events : List (String × List ScraperEvent) := []
  job_order : List String := []

/-- Dict lookup in `_job_events` (keys are unique, so the first
matching entry is the entry). -/
def jobLookup : List (String × List ScraperEvent) → String →
    Option (List ScraperEvent)
  | [], _ => none
  | p :: m, j => if p.1 = j then some p.2 else jobLookup m j

/-- Dict `pop(key, None)`. -/
def jobErase (m : List (String × List ScraperEvent)) (j : String) :
    List (String × List ScraperEvent) :=
  m.filter (fun p => p.1 ≠ j)

/-- Dict assignment `m[key] = v` (replace or append). -/
def jobStore (m : List (String × List ScraperEvent)) (j : String)
    (v : List ScraperEvent) : List (String × List ScraperEvent) :=
  if (jobLookup m j).isSome then
    m.map (fun p => if p.1 = j then (j, v) else p)
  else m ++ [(j, v)]

/-- `EventBus.emit`, first paragraph: append to the global ring buffer
and trim it to `_buffer_size`. -/
def emitTrimGlobal (bus : EventBus) (e : ScraperEvent) : EventBus :=
  let events := bus.events ++ [e]
  let events := if events.length > bus.buffer_size then
      pyLastSlice bus.buffer_size events
    else events
  { bus with events := events }

/-- `EventBus.emit`, second paragraph: per-job dict/LRU maintenance for
a truthy `job_id = j` — create the job's empty buffer (evicting the
oldest job when `_max_jobs` would be exceeded) or move an existing job
to the end of the LRU order. -/
def emitJobReorder (bus : EventBus) (j : String) : EventBus :=
  if jobLookup bus.job_events j = none then
    let bus :=
      if bus.job_order.length ≥ bus.max_jobs then
        match bus.job_order with
        | [] => bus
        | oldest :: rest =>
          { bus with job_order := rest,
                     job_events := jobErase bus.job_events oldest }
      else bus
    { bus with job_events := jobStore bus.job_events j [],
               job_order := bus.job_order ++ [j] }
  else
    if bus.job_order.getLast? ≠ some j then
      { bus with job_order := (bus.job_order.erase j) ++ [j] }
    else bus

/-- `EventBus.emit`, third paragraph: append the event to the per-job
buffer and trim it — note the per-job trim also uses `_buffer_size`. -/
def emitJobAppend (bus : EventBus) (e : ScraperEvent) (j : String) :
    EventBus :=
  let buf := (jobLookup bus.job_events j).getD [] ++ [e]
  let buf := if buf.length > bus.buffer_size then
      pyLastSlice bus.buffer_size buf
    else buf
  { bus with job_events := jobStore bus.job_events j buf }

/-- `EventBus.emit`: global ring buffer, then per-job buffer with LRU
eviction.  Subscriber notification and optional persistence do not
touch the buffers and are omitted. -/
def emit (bus : EventBus) (e : ScraperEvent) : EventBus :=
  let bus := emitTrimGlobal bus e
  if pyTruthyStr e.job_id then
    match e.job_id with
    | none => bus
    | some j => emitJobAppend (emitJobReorder bus j) e j
  else bus

/-- `EventBus.get_events`: use the per-job buffer when `job_id` is
truthy and present, otherwise fall back to the whole global buffer;
then filter by event types and `since`, and keep the last `limit`
events.  Python's `if event_types:` and `if since:` are truthiness
tests (an empty list / empty string disables the filter). -/
def getEvents (bus : EventBus) (job_id : Option String)
    (event_types : Option (List String)) (since : Option String)
    (limit : ℕ) : List ScraperEvent :=
  let events :=
    match job_id with
    | some j =>
      if j ≠ "" ∧ (jobLookup bus.job_events j).isSome then
        (jobLookup bus.job_events j).getD []
      else bus.events
    | none => bus.events
  let events :=
    match event_types with
    | some ts => if ts ≠ [] then events.filter (fun e => e.event_type ∈ ts) else events
    | none => events
  let events :=
    match since with
    | some s => if s ≠ "" then events.filter (fun e => s < e.timestamp) else events
    | none => events
  pyLastSlice limit events

/-- The module-level default bus: `EventBus(buffer_size=1000, ...)` —
`max_jobs` keeps its default 100, and the single `buffer_size=1000`
governs both the global and the per-job buffers. -/
def defaultEventBus : EventBus := { buffer_size := 1000 }

/-! ## core/scheduler.py — SiteConfig, task statuses, and the
concurrency step relation

`SiteScheduler._process_task` acquires the global semaphore (capacity
`max_workers`) and then the site semaphore (capacity
`config.effective_max_workers`) before moving a task to `running`; the
two nested `async with` acquisitions are modelled as a single step
guarded by both capacities.  Status assignments are taken verbatim from
the code: `queued` at `enqueue`, `waiting` at the top of
`_process_task`, `running` once both semaphores are held, and exactly
one of `completed`/`failed`/`cancelled` afterwards (`cancelled` only
from the `except asyncio.CancelledError` handler around the running
scraper call).  `shutdown()` only sets `_shutdown_event`; the worker
loop condition `while not self._shutdown_event.is_set()` guards picking
up new tasks and no code path assigns a status at shutdown. -/

structure SiteConfig where
  requires_login : Bool := false
  site_max_workers : ℕ := 2
  deriving DecidableEq, Repr

/-- `SiteConfig.effective_max_workers`: 1 if login is required, else
`site_max_workers` (the property itself applies no global cap). -/
def SiteConfig.effective_max_workers (c : SiteConfig) : ℕ :=
  if c.requires_login then 1 else c.site_max_workers

inductive TaskStatus
  | queued
  | waiting
  | running
  | completed
  | failed
  | cancelled
  deriving DecidableEq, Repr

/-- A scheduled task, reduced to the fields the scheduling claims are
about. -/
structure STask where
  site : String
  status : TaskStatus
  deriving DecidableEq, Repr

/-- Scheduler-wide state: all tasks (across sites) and the shutdown
flag. -/
structure SchedState where
  tasks : List STask
  shutdown : Bool
  deriving DecidableEq, Repr

/-- Replace the status of the i-th task. -/
def setStatus : List STask → ℕ → TaskStatus → List STask
  | [], _, _ => []
  | t :: ts, 0, st => { t with status := st } :: ts
  | t :: ts, i + 1, st => t :: setStatus ts i st

/-- Number of `running` tasks of one site. -/
def runningCount (s : SchedState) (site : String) : ℕ :=
  (s.tasks.filter (fun t => t.site = site ∧ t.status = .running)).length

/-- Number of `running` tasks over all sites (the global semaphore's
in-use permits). -/
def totalRunning (s : SchedState) : ℕ :=
  (s.tasks.filter (fun t => t.status = .running)).length

/-- One atomic step of the orchestrator/site-scheduler system with site
configurations `cfg` and global `max_workers = G`. -/
inductive SchedStep (cfg : String → SiteConfig) (G : ℕ) :
    SchedState → SchedState → Prop
  | enqueue (s : SchedState) (site : String) :
      SchedStep cfg G s { s with tasks := s.tasks ++ [⟨site, .queued⟩] }
  | pickup (s : SchedState) (i : ℕ) (t : STask)
      (hsh : s.shutdown = false)
      (ht : s.tasks.get? i = some t) (hq : t.status = .queued) :
      SchedStep cfg G s { s with tasks := setStatus s.tasks i .waiting }
  | start (s : SchedState) (i : ℕ) (t : STask)
      (ht : s.tasks.get? i = some t) (hw : t.status = .waiting)
      (hglobal : totalRunning s < G)
      (hsite : runningCount s t.site < (cfg t.site).effective_max_workers) :
      SchedStep cfg G s { s with tasks := setStatus s.tasks i .running }
  | complete (s : SchedState) (i : ℕ) (t : STask)
      (ht : s.tasks.get? i = some t) (hr : t.status = .running) :
      SchedStep cfg G s { s with tasks := setStatus s.tasks i .completed }
  | fail (s : SchedState) (i : ℕ) (t : STask)
      (ht : s.tasks.get? i = some t) (hr : t.status = .running) :
      SchedStep cfg G s { s with tasks := setStatus s.tasks i .failed }
  | cancel (s : SchedState) (i : ℕ) (t : STask)
      (ht : s.tasks.get? i = some t) (hr : t.status = .running) :
      SchedStep cfg G s { s with tasks := setStatus s.tasks i .cancelled }
  | requestShutdown (s : SchedState) :
      SchedStep cfg G s { s with shutdown := true }

/-- Reachability through scheduler steps. -/
def SchedReach (cfg : String → SiteConfig) (G : ℕ) :
    SchedState → SchedState → Prop :=
  Relation.ReflTransGen (SchedStep cfg G)

/-- The state right after enqueueing tasks for the given sites. -/
def initSched (sites : List String) : SchedState :=
  { tasks := sites.map (fun site => ⟨site, .queued⟩), shutdown := false }

/-! ## core/failure_classifier.py — classify_exception

The classifier's message rules are Python regexes used through
`re.search` (match anywhere).  They are embedded as a small regular
expression language with Brzozowski-derivative matching; the only
constructs the source patterns use are literals, `.` via `.*`,
alternation groups and `?`. -/

inductive Rx
  | emp
  | eps
  | char (c : Char)
  | any
  | seq (a b : Rx)
  | alt (a b : Rx)
  | star (a : Rx)
  deriving DecidableEq, Repr

def Rx.nullable : Rx → Bool
  | .emp => false
  | .eps => true
  | .char _ => false
  | .any => false
  | .seq a b => a.nullable && b.nullable
  | .alt a b => a.nullable || b.nullable
  | .star _ => true

/-- Smart `seq` constructor (for derivative-size control only). -/
def Rx.mkSeq : Rx → Rx → Rx
  | .emp, _ => .emp
  | _, .emp => .emp
  | .eps, b => b
  | a, .eps => a
  | a, b => .seq a b

/-- Smart `alt` constructor (for derivative-size control only). -/
def Rx.mkAlt : Rx → Rx → Rx
  | .emp, b => b
  | a, .emp => a
  | a, b => .alt a b

def Rx.deriv : Rx → Char → Rx
  | .emp, _ => .emp
  | .eps, _ => .emp
  | .char c, a => if c = a then .eps else .emp
  | .any, _ => .eps
  | .seq a b, c =>
    if a.nullable then .mkAlt (.mkSeq (a.deriv c) b) (b.deriv c)
    else .mkSeq (a.deriv c) b
  | .alt a b, c => .mkAlt (a.deriv c) (b.deriv c)
  | .star a, c => .mkSeq (a.deriv c) (.star a)

/-- Whole-string match. -/
def Rx.matches (r : Rx) (s : List Char) : Bool :=
  (s.foldl Rx.deriv r).nullable

/-- `re.search(pattern, text)`: the pattern occurs somewhere in the
text. -/
def rxSearch (r : Rx) (s : String) : Bool :=
  Rx.matches (.seq (.star .any) (.seq r (.star .any))) s.toList

def rxLit (s : String) : Rx :=
  s.toList.foldr (fun c r => Rx.seq (Rx.char c) r) Rx.eps

def rxOpt (r : Rx) : Rx := Rx.alt r Rx.eps

def rxDotStar : Rx := Rx.star Rx.any

/-- `(a|b|c)` groups. -/
def rxAlts : List Rx → Rx
  | [] => Rx.emp
  | [r] => r
  | r :: rs => Rx.alt r (rxAlts rs)

def rxCat : List Rx → Rx
  | [] => Rx.eps
  | [r] => r
  | r :: rs => Rx.seq r (rxCat rs)

/-- The `text_patterns` of `FailureClassifier.failure_patterns`, per
failure type, transcribed pattern by pattern (`re.IGNORECASE` is
immaterial: the classifier matches against the lower-cased exception
message and every pattern is lower-case). -/
def failureTextPatterns : FailureType → List Rx
  | .NO_RESULTS =>
    [ rxCat [rxLit "no ",
        rxAlts [rxCat [rxLit "result", rxOpt (Rx.char 's')],
                rxCat [rxLit "product", rxOpt (Rx.char 's')],
                rxCat [rxLit "item", rxOpt (Rx.char 's')]],
        rxLit " found"],
      rxCat [rxLit "your search", rxDotStar, rxLit "returned no results"],
      rxLit "no matching products",
      rxLit "empty",
      rxLit "product not found",
      rxLit "item not available",
      rxLit "page you requested cannot be found" ]
  | .LOGIN_FAILED =>
    [ rxCat [rxAlts [rxLit "login", rxLit "authentication"], rxDotStar,
        rxAlts [rxLit "failed", rxLit "error", rxLit "invalid"]],
      rxCat [rxLit "incorrect", rxDotStar,
        rxAlts [rxLit "username", rxLit "password", rxLit "credentials"]],
      rxLit "access denied",
      rxLit "unauthorized" ]
  | .CAPTCHA_DETECTED =>
    [ rxLit "captcha",
      rxCat [rxLit "verify", rxDotStar, rxLit "human"],
      rxCat [rxLit "robot", rxDotStar, rxLit "verification"],
      rxCat [rxLit "security", rxDotStar, rxLit "check"] ]
  | .RATE_LIMITED =>
    [ rxLit "rate limit",
      rxLit "too many requests",
      rxLit "throttl",
      rxLit "please wait",
      rxCat [rxLit "temporary", rxDotStar, rxLit "block"] ]
  | .PAGE_NOT_FOUND =>
    [ rxLit "404",
      rxLit "page not found",
      rxLit "not found",
      rxLit "doesn\x27t exist" ]
  | .ACCESS_DENIED =>
    [ rxLit "access denied",
      rxLit "forbidden",
      rxLit "blocked",
      rxLit "banned",
      rxLit "403" ]
  | .NETWORK_ERROR =>
    [ rxCat [rxLit "connection", rxDotStar,
        rxAlts [rxLit "failed", rxLit "error", rxLit "timeout", rxLit "reset"]],
      rxCat [rxLit "network", rxDotStar, rxLit "error"],
      rxCat [rxLit "server", rxDotStar, rxLit "error"],
      rxLit "timeout",
      rxLit "err_connection_refused",
      rxLit "dns_probe_finished_nxdomain" ]
  | .ELEMENT_MISSING => []
  | .TIMEOUT =>
    [ rxLit "timeout",
      rxLit "timed out",
      rxCat [rxLit "waiting", rxDotStar, rxLit "failed"],
      rxCat [rxLit "element", rxDotStar, rxLit "not", rxDotStar, rxLit "visible"] ]

/-- The `recovery_strategy` entries of `failure_patterns`. -/
def patternRecoveryStrategy : FailureType → String
  | .NO_RESULTS => "fail_and_continue_to_next_sku"
  | .LOGIN_FAILED => "relogin"
  | .CAPTCHA_DETECTED => "solve_captcha"
  | .RATE_LIMITED => "wait_and_retry"
  | .PAGE_NOT_FOUND => "skip_and_continue"
  | .ACCESS_DENIED => "rotate_session"
  | .NETWORK_ERROR => "retry"
  | .ELEMENT_MISSING => "retry_with_wait"
  | .TIMEOUT => "retry_with_backoff"

/-- `FailureContext` produced by the classifier (the free-form
`details` dict carries no claim-relevant information and is omitted). -/
structure FailureContextFC where
  failure_type : FailureType
  confidence : ℚ
  recovery_strategy : String
  deriving DecidableEq, Repr

/-- `_calculate_text_match_confidence` on an exception message (the
classifier passes the raw pattern list positionally, so the
on-the-fly path runs): 0.7 on any pattern match, else 0.0. -/
def textMatchConfidence (s : String) (pats : List Rx) : ℚ :=
  if pats.any (fun p => rxSearch p s) then 7/10 else 0

/-- The kinds the message-pattern loop consults, in the insertion order
of `failure_patterns`; `ELEMENT_MISSING` and `NETWORK_ERROR` are
skipped inside the loop. -/
def consultedKinds : List FailureType :=
  [.NO_RESULTS, .LOGIN_FAILED, .CAPTCHA_DETECTED, .RATE_LIMITED,
   .PAGE_NOT_FOUND, .ACCESS_DENIED, .TIMEOUT]

/-- The `for failure_type, patterns in self.failure_patterns.items()`
loop of `classify_exception`: first kind whose text-match confidence
exceeds 0.5 wins. -/
def classifyLoop (s : String) : List FailureType → Option FailureContextFC
  | [] => none
  | ft :: rest =>
    let c := textMatchConfidence s (failureTextPatterns ft)
    if c > 1/2 then some ⟨ft, c, patternRecoveryStrategy ft⟩
    else classifyLoop s rest

/-- `FailureClassifier.classify_exception` (default-constructed
classifier, no site-specific patterns).  The timeout rule tests
`"Timeout" in exception_type or "Timeout" in exception_str`; since
`exception_str` is lower-cased, the second disjunct is vacuous but is
embedded as written.  The `context` argument only feeds the omitted
`details` dict and never influences the failure type, confidence or
recovery strategy. -/
def classifyExceptionFC (exc : PyException) : FailureContextFC :=
  let s := strLower exc.msg
  let t := exc.ty
  if pyIn "Timeout" t || pyIn "Timeout" s then
    ⟨.TIMEOUT, 9/10, "retry_with_backoff"⟩
  else if pyIn "element" s && (pyIn "not found" s || pyIn "unable to find" s) then
    ⟨.ELEMENT_MISSING, 8/10, "retry_with_wait"⟩
  else if pyIn "connection" s || pyIn "network" s || pyIn "timeout" s ||
      pyIn "econn" s || pyIn "target closed" s then
    ⟨.NETWORK_ERROR, 8/10, "retry"⟩
  else
    match classifyLoop s consultedKinds with
    | some fc => fc
    | none => ⟨.NETWORK_ERROR, 3/10, "retry"⟩

/-! ## scrapers/executor/workflow_executor.py — the `extract_weight`
normalization of `apply_normalization`

The rule matches `re.search(r"(\d+(?:\.\d+)?)\s*(lbs?|lb|oz|kg|g)?",
value, re.IGNORECASE)`.  Since the pattern begins with `\d+`, the
leftmost match starts at the first digit of the value and always
succeeds there; the optional fraction and the unit are matched greedily
in the alternation order of the pattern.  Python floats are modelled as
exact rationals (every constant involved is decimal and the claims
evaluate away from any rounding tie). -/

def natOfDigits (l : List Char) : ℕ :=
  l.foldl (fun n c => 10 * n + (c.toNat - Char.toNat (Char.ofNat 48))) 0

/-- `(lbs?|lb|oz|kg|g)?` right after the skipped whitespace, combined
with `(match.group(2) or "lb").lower()`: the matched unit lower-cased,
or `"lb"` when the group is absent. -/
def parseUnit (l : List Char) : String :=
  match l.map Char.toLower with
  | 'l' :: 'b' :: 's' :: _ => "lbs"
  | 'l' :: 'b' :: _ => "lb"
  | 'o' :: 'z' :: _ => "oz"
  | 'k' :: 'g' :: _ => "kg"
  | 'g' :: _ => "g"
  | _ => "lb"

/-- Match the pattern at a position known to start with a digit:
`\d+` then optional `\.\d+` then `\s*` then the optional unit.
The matched number is returned in digit form — integer-part value,
fraction-part value and fraction length — so that the match itself
stays kernel-computable; `ratOfMatch` below is `float(match.group(1))`.
-/
def weightMatchAt (l : List Char) : (ℕ × ℕ × ℕ) × String :=
  let ds := l.takeWhile Char.isDigit
  let rest := l.dropWhile Char.isDigit
  let fracRest : List Char × List Char :=
    match rest with
    | '.' :: r2 =>
      let f := r2.takeWhile Char.isDigit
      if f = [] then ([], rest) else (f, r2.dropWhile Char.isDigit)
    | _ => ([], rest)
  ((natOfDigits ds, natOfDigits fracRest.1, fracRest.1.length),
    parseUnit (fracRest.2.dropWhile Char.isWhitespace))

/-- `re.search`: scan to the leftmost digit (where every match of the
pattern must start). -/
def findWeightMatch : List Char → Option ((ℕ × ℕ × ℕ) × String)
  | [] => none
  | c :: rest =>
    if c.isDigit then some (weightMatchAt (c :: rest))
    else findWeightMatch rest

/-- `float(match.group(1))`: the decimal value of the matched digits,
as an exact rational. -/
def ratOfMatch (i f k : ℕ) : ℚ :=
  (i : ℚ) + (f : ℚ) / ((10 : ℚ) ^ k)

/-- The unit conversion of the `extract_weight` branch: oz are divided
by 16, kg multiplied by 2.20462, g by 0.00220462, anything else (lb,
lbs, or absent unit) kept as is. -/
def convertWeight (w : ℚ) (unit : String) : ℚ :=
  if unit = "oz" then w / 16
  else if unit = "kg" then w * (220462 / 100000 : ℚ)
  else if unit = "g" then w * (220462 / 100000000 : ℚ)
  else w

/-- Round to the nearest integer, ties to even (the behaviour of
`f"{x:.2f}"` scaled by 100). -/
def roundHalfEven (x : ℚ) : ℤ :=
  let f := ⌊x⌋
  let r := x - f
  if r < 1/2 then f
  else if 1/2 < r then f + 1
  else if f % 2 = 0 then f else f + 1

/-- `f"{weight:.2f}"` for the non-negative weights this path produces. -/
def formatTwoDec (q : ℚ) : String :=
  let n := (roundHalfEven (q * 100)).toNat
  natRepr (n / 100) ++ "." ++
    (if n % 100 < 10 then "0" ++ natRepr (n % 100) else natRepr (n % 100))

/-- The `extract_weight` action of `apply_normalization` on one string
field: parse number and unit, convert to pounds, format to two
decimals; if the pattern finds no match the field is left unchanged. -/
def normalizeExtractWeight (value : String) : String :=
  match findWeightMatch value.toList with
  | none => value
  | some ((i, f, k), unit) => formatTwoDec (convertWeight (ratOfMatch i f k) unit)

/-! # Claims -/

/-! ## C1 — is_passing law -/

/-- C1: `calculate_is_passing sku_type outcome` is true exactly when
(`fake`, `no_results`) or (`test`, `success`); every constructed
`SkuResult` carries exactly this value in `is_passing`; in particular a
fake SKU with outcome `success` is not passing. -/
theorem claim_C1_is_passing_law :
    (∀ (t : SkuType) (o : SkuOutcome),
      calculate_is_passing t o = true ↔
        ((t = .fake ∧ o = .no_results) ∨ (t = .test ∧ o = .success)))
    ∧ (∀ (sku : String) (t : SkuType) (o : SkuOutcome)
        (err : Option String) (dur : Option ℚ),
        (mkSkuResult sku t o err dur).is_passing = calculate_is_passing t o)
    ∧ calculate_is_passing .fake .success = false :=
  ⟨fun t o => by cases t <;> cases o <;> decide,
   fun _ _ _ _ _ => rfl, by decide⟩

/-! ## C2 — open circuit blocks calls immediately -/

/-- C2: while a site's breaker is `open` and less than the 60-second
default cooldown has passed since its last recorded failure, every
`execute_with_retry` call returns immediately with `success = False`,
`attempts = 0` and a non-retryable `CircuitBreakerOpenError`, invoking
the operation zero times and leaving the breaker state unchanged. -/
theorem claim_C2_circuit_open_blocks (env : RetryEnv) (now t : ℚ)
    (ctx : ErrorContext) (maxRetries : Option ℕ)
    (configMaxRetries fuel : ℕ) (cb : CircuitBreakerState)
    (hopen : cb.state = .open_)
    (hlast : cb.last_failure_time = some t)
    (helapsed : now - t < defaultCircuitConfig.timeout_seconds) :
    executeWithRetry env defaultCircuitConfig now ctx maxRetries
        configMaxRetries fuel cb
      = some ({ success := false,
                error := some ⟨.circuitBreakerOpenError,
                  "Circuit breaker open", ctx⟩,
                attempts := 0 }, 0, cb)
      ∧ retryableKind .circuitBreakerOpenError = false := by
  have hcheck : checkCircuitBreaker defaultCircuitConfig now cb = (false, cb) := by
    unfold checkCircuitBreaker
    rw [hopen, hlast]
    have hnot : ¬ (now - t ≥ defaultCircuitConfig.timeout_seconds) :=
      not_le.mpr helapsed
    by_cases ht : t = (0 : ℚ) <;> simp [ht, hnot]
  refine ⟨?_, rfl⟩
  unfold executeWithRetry
  rw [hcheck]
  simp

/-- Witness for C2 at a concrete open breaker (last failure at time 50,
call at time 80, 30 < 60 seconds elapsed). -/
theorem claim_C2_witness :
    (({ state := .open_, last_failure_time := some 50 } :
        CircuitBreakerState).state = .open_)
    ∧ (executeWithRetry
        { op := fun _ => .ok, recovery := fun _ => none,
          stopEvent := fun _ => false, delay := fun _ => 0 }
        defaultCircuitConfig 80 {} none 3 9
        { state := .open_, last_failure_time := some 50 }
      = some ({ success := false,
                error := some ⟨.circuitBreakerOpenError,
                  "Circuit breaker open", {}⟩,
                attempts := 0 }, 0,
              { state := .open_, last_failure_time := some 50 })) :=
  ⟨rfl,
    (claim_C2_circuit_open_blocks
      { op := fun _ => .ok, recovery := fun _ => none,
        stopEvent := fun _ => false, delay := fun _ => 0 }
      80 50 {} none 3 9
      { state := .open_, last_failure_time := some 50 }
      rfl rfl (by norm_num [defaultCircuitConfig])).1⟩

/-! ## C3 — no_results / page_not_found failures and the breaker

The claim states that failures classified `no_results` or
`page_not_found` do not touch the circuit breaker.  In the source,
`execute_with_retry` calls `_update_circuit_breaker_failure` for
**every** non-retryable error — `NoResultsError` and `PageNotFoundError`
included (retry_executor.py lines 245-247); nothing in
`_update_circuit_breaker_failure` inspects the failure kind. -/

/-- An operation that always raises an exception classified as
`NoResultsError` ("no results" matches the no-results message rule of
`classify_exception`). -/
def envNoResults : RetryEnv :=
  { op := fun _ => .raises ⟨"RuntimeError", "no results"⟩
    recovery := fun _ => none
    stopEvent := fun _ => false
    delay := fun _ => 0 }

/-- C3 counterexample: a site whose breaker is closed with
`failure_count = 4` (one below the default threshold 5).  A single
`execute_with_retry` call whose operation fails with a `no_results`
failure increments the breaker's failure count to 5 and flips the
breaker from `closed` to `open` — the claim says neither may happen. -/
theorem claim_C3_counterexample :
    (executeWithRetry envNoResults defaultCircuitConfig 0 {} none 3 10
        { failure_count := 4 }).map
      (fun r => (r.1.success, r.1.attempts, r.1.error.map ScraperError.kind,
                 r.2.2.failure_count, r.2.2.state))
      = some (false, 1, some .noResultsError, 5, .open_)
    ∧ (({ failure_count := 4 } : CircuitBreakerState).state = .closed
        ∧ ¬ ((5 : ℕ) = 4) ∧ CircuitState.open_ ≠ .closed) := by
  constructor
  · decide
  · exact ⟨rfl, by decide, by decide⟩

/-- C3 amended: a failure classified as one of the non-retryable-absent
kinds (`no_results` or `page_not_found`) ends the call immediately
(non-retryable) and **does** increment the per-site circuit breaker's
failure count — exactly like any other non-retryable failure — and
therefore can contribute to the closed-to-open transition once the
count reaches the threshold. -/
theorem claim_C3_amended (env : RetryEnv) (cfg : CircuitBreakerConfig)
    (now : ℚ) (ctx : ErrorContext) (mr : Option ℕ) (cmr fuel : ℕ)
    (cb : CircuitBreakerState) (exc : PyException)
    (hop : env.op 0 = .raises exc)
    (hkind : (classifyException exc
        { ctx with retry_count := 0, max_retries := mr.getD cmr }).kind
          = .noResultsError
      ∨ (classifyException exc
        { ctx with retry_count := 0, max_retries := mr.getD cmr }).kind
          = .pageNotFoundError)
    (hclosed : cb.state = .closed) :
    (executeWithRetry env cfg now ctx mr cmr (fuel + 1) cb).map
        (fun r => (r.1.success, r.1.attempts, r.2.2))
      = some (false, 1, updateCircuitBreakerFailure cfg now cb)
    ∧ (updateCircuitBreakerFailure cfg now cb).failure_count
        = cb.failure_count + 1
    ∧ (cb.failure_count + 1 ≥ cfg.failure_threshold →
        (updateCircuitBreakerFailure cfg now cb).state = .open_) := by
  have hcheck : checkCircuitBreaker cfg now cb = (true, cb) := by
    unfold checkCircuitBreaker
    rw [hclosed]
  have hretry : isRetryable (classifyException exc
      { ctx with retry_count := 0, max_retries := mr.getD cmr }) = false := by
    unfold isRetryable
    rcases hkind with h | h <;> rw [h] <;> rfl
  have hupd : ∀ g : CircuitBreakerState → Prop,
      g ({ cb with failure_count := cb.failure_count + 1,
                    last_failure_time := some now,
                    state := if cb.failure_count + 1 ≥ cfg.failure_threshold
                      then .open_ else cb.state }) →
      g (updateCircuitBreakerFailure cfg now cb) := by
    intro g hg
    unfold updateCircuitBreakerFailure
    rw [hclosed]
    simp only []
    by_cases hth : cb.failure_count + 1 ≥ cfg.failure_threshold
    · simpa [hth, hclosed] using hg
    · simpa [hth, hclosed] using hg
  refine ⟨?_, ?_, ?_⟩
  · unfold executeWithRetry retryLoop
    simp only [hcheck, hop, hretry]
    simp
  · refine hupd (fun st => st.failure_count = cb.failure_count + 1) rfl
  · intro hth
    refine hupd (fun st => st.state = .open_) ?_
    simp [hth]

/-- Witness for C3's amended claim at the counterexample's concrete
input. -/
theorem claim_C3_amended_witness :
    envNoResults.op 0 = .raises ⟨"RuntimeError", "no results"⟩
    ∧ (classifyException ⟨"RuntimeError", "no results"⟩
        ({} : ErrorContext)).kind = .noResultsError
    ∧ (executeWithRetry envNoResults defaultCircuitConfig 0 {} none 3 1
        { failure_count := 4 }).map
        (fun r => (r.1.success, r.1.attempts, r.2.2))
      = some (false, 1,
          updateCircuitBreakerFailure defaultCircuitConfig 0
            { failure_count := 4 }) :=
  ⟨rfl, by decide,
    (claim_C3_amended envNoResults defaultCircuitConfig 0 {} none 3 0
      { failure_count := 4 } ⟨"RuntimeError", "no results"⟩
      rfl (Or.inl (by decide)) rfl).1⟩

/-! ## Scheduler lemmas shared by C4 and C8 -/

theorem get?_setStatus_ne (l : List STask) (i j : ℕ) (st : TaskStatus)
    (h : i ≠ j) : (setStatus l i st).get? j = l.get? j := by
  induction l generalizing i j with
  | nil => cases i <;> rfl
  | cons a as ih =>
    cases i with
    | zero => cases j with
      | zero => exact absurd rfl h
      | succ j => rfl
    | succ i => cases j with
      | zero => rfl
      | succ j => exact ih i j (fun hij => h (by omega))

theorem get?_setStatus_self (l : List STask) (i : ℕ) (t : STask)
    (st : TaskStatus) (ht : l.get? i = some t) :
    (setStatus l i st).get? i = some { t with status := st } := by
  induction l generalizing i with
  | nil => cases i <;> simp at ht
  | cons a as ih =>
    cases i with
    | zero => simp at ht; subst ht; rfl
    | succ i => exact ih i ht

theorem filter_setStatus_length (p : STask → Bool) (l : List STask)
    (i : ℕ) (t : STask) (ht : l.get? i = some t) (st : TaskStatus) :
    ((setStatus l i st).filter p).length + (if p t then 1 else 0)
      = (l.filter p).length + (if p { t with status := st } then 1 else 0) := by
  induction l generalizing i with
  | nil => simp at ht
  | cons a as ih =>
    cases i with
    | zero =>
      simp only [List.get?] at ht
      injection ht with ht
      subst ht
      simp only [setStatus, List.filter]
      by_cases h1 : p a <;> by_cases h2 : p { a with status := st } <;>
        simp [h1, h2] <;> omega
    | succ i =>
      simp only [List.get?] at ht
      have := ih i ht
      simp only [setStatus, List.filter]
      by_cases h1 : p a <;> simp [h1] <;> omega

theorem runningCount_le_totalRunning (s : SchedState) (site : String) :
    runningCount s site ≤ totalRunning s := by
  unfold runningCount totalRunning
  induction s.tasks with
  | nil => simp
  | cons a as ih =>
    simp only [List.filter]
    by_cases h1 : (decide (a.site = site ∧ a.status = .running)) = true <;>
      by_cases h2 : (decide (a.status = .running)) = true <;>
        simp_all <;> omega

/-- Count change through `setStatus`, with the two point values given
as hypotheses (so that callers can discharge them without rewriting
inside the filter predicates). -/
theorem filter_setStatus_counts (p : STask → Bool) (l : List STask)
    (i : ℕ) (t : STask) (ht : l.get? i = some t) (st : TaskStatus)
    (a b : ℕ)
    (hpt : (if p t then 1 else 0) = a)
    (hpt' : (if p { t with status := st } then 1 else 0) = b) :
    ((setStatus l i st).filter p).length + a = (l.filter p).length + b := by
  rw [← hpt, ← hpt']
  exact filter_setStatus_length p l i t ht st

/-- Invariant: one scheduler step keeps the global running count within
`G` and each site's running count within its site semaphore capacity. -/
theorem schedStep_counts {cfg : String → SiteConfig} {G : ℕ}
    {s s' : SchedState} (h : SchedStep cfg G s s')
    (hG : totalRunning s ≤ G)
    (hsite : ∀ site, runningCount s site ≤ (cfg site).effective_max_workers) :
    totalRunning s' ≤ G
    ∧ ∀ site, runningCount s' site ≤ (cfg site).effective_max_workers := by
  cases h with
  | enqueue site =>
    constructor
    · unfold totalRunning at *
      simpa [List.filter_append] using hG
    · intro st
      have := hsite st
      unfold runningCount at *
      simpa [List.filter_append] using this
  | pickup i t hsh ht hq =>
    refine ⟨?_, fun st => ?_⟩
    · have key := filter_setStatus_counts
        (fun u => decide (u.status = TaskStatus.running)) s.tasks i t ht
        .waiting 0 0 (by simp [hq]) (by simp)
      unfold totalRunning at hG ⊢
      dsimp only at key ⊢
      omega
    · have key := filter_setStatus_counts
        (fun u => decide (u.site = st ∧ u.status = TaskStatus.running))
        s.tasks i t ht .waiting 0 0 (by simp [hq]) (by simp)
      have hb := hsite st
      unfold runningCount at hb ⊢
      dsimp only at key ⊢
      omega
  | start i t ht hw hglobal hsitelt =>
    refine ⟨?_, fun st => ?_⟩
    · have key := filter_setStatus_counts
        (fun u => decide (u.status = TaskStatus.running)) s.tasks i t ht
        .running 0 1 (by simp [hw]) (by simp)
      unfold totalRunning at hglobal ⊢
      dsimp only at key ⊢
      omega
    · by_cases hst : t.site = st
      · subst hst
        have key := filter_setStatus_counts
          (fun u => decide (u.site = t.site ∧ u.status = TaskStatus.running))
          s.tasks i t ht .running 0 1 (by simp [hw]) (by simp)
        unfold runningCount at hsitelt ⊢
        dsimp only at key ⊢
        omega
      · have key := filter_setStatus_counts
          (fun u => decide (u.site = st ∧ u.status = TaskStatus.running))
          s.tasks i t ht .running 0 0 (by simp [hst]) (by simp [hst])
        have hb := hsite st
        unfold runningCount at hb ⊢
        dsimp only at key ⊢
        omega
  | complete i t ht hr =>
    refine ⟨?_, fun st => ?_⟩
    · have key := filter_setStatus_counts
        (fun u => decide (u.status = TaskStatus.running)) s.tasks i t ht
        .completed 1 0 (by simp [hr]) (by simp)
      unfold totalRunning at hG ⊢
      dsimp only at key ⊢
      omega
    · have key := filter_setStatus_counts
        (fun u => decide (u.site = st ∧ u.status = TaskStatus.running))
        s.tasks i t ht .completed
        (if t.site = st then 1 else 0) 0
        (by by_cases hst : t.site = st <;> simp [hst, hr])
        (by by_cases hst : t.site = st <;> simp [hst])
      have hb := hsite st
      unfold runningCount at hb ⊢
      dsimp only at key ⊢
      by_cases hst : t.site = st <;> simp only [hst, if_pos, if_neg] at key <;>
        first
          | omega
          | (rw [if_neg hst] at key; omega)
  | fail i t ht hr =>
    refine ⟨?_, fun st => ?_⟩
    · have key := filter_setStatus_counts
        (fun u => decide (u.status = TaskStatus.running)) s.tasks i t ht
        .failed 1 0 (by simp [hr]) (by simp)
      unfold totalRunning at hG ⊢
      dsimp only at key ⊢
      omega
    · have key := filter_setStatus_counts
        (fun u => decide (u.site = st ∧ u.status = TaskStatus.running))
        s.tasks i t ht .failed
        (if t.site = st then 1 else 0) 0
        (by by_cases hst : t.site = st <;> simp [hst, hr])
        (by by_cases hst : t.site = st <;> simp [hst])
      have hb := hsite st
      unfold runningCount at hb ⊢
      dsimp only at key ⊢
      by_cases hst : t.site = st <;> simp only [hst, if_pos, if_neg] at key <;>
        first
          | omega
          | (rw [if_neg hst] at key; omega)
  | cancel i t ht hr =>
    refine ⟨?_, fun st => ?_⟩
    · have key := filter_setStatus_counts
        (fun u => decide (u.status = TaskStatus.running)) s.tasks i t ht
        .cancelled 1 0 (by simp [hr]) (by simp)
      unfold totalRunning at hG ⊢
      dsimp only at key ⊢
      omega
    · have key := filter_setStatus_counts
        (fun u => decide (u.site = st ∧ u.status = TaskStatus.running))
        s.tasks i t ht .cancelled
        (if t.site = st then 1 else 0) 0
        (by by_cases hst : t.site = st <;> simp [hst, hr])
        (by by_cases hst : t.site = st <;> simp [hst])
      have hb := hsite st
      unfold runningCount at hb ⊢
      dsimp only at key ⊢
      by_cases hst : t.site = st <;> simp only [hst, if_pos, if_neg] at key <;>
        first
          | omega
          | (rw [if_neg hst] at key; omega)
  | requestShutdown => exact ⟨hG, hsite⟩

theorem initSched_counts (sites : List String) :
    totalRunning (initSched sites) = 0
    ∧ ∀ site, runningCount (initSched sites) site = 0 := by
  constructor
  · unfold totalRunning initSched
    induction sites with
    | nil => rfl
    | cons a as ih => simpa [List.filter] using ih
  · intro site
    unfold runningCount initSched
    induction sites with
    | nil => rfl
    | cons a as ih => simpa [List.filter] using ih

theorem schedReach_counts {cfg : String → SiteConfig} {G : ℕ}
    {sites : List String} {s : SchedState}
    (h : SchedReach cfg G (initSched sites) s) :
    totalRunning s ≤ G
    ∧ ∀ site, runningCount s site ≤ (cfg site).effective_max_workers := by
  induction h with
  | refl =>
    have := initSched_counts sites
    exact ⟨by omega, fun site => by have := this.2 site; omega⟩
  | tail hsteps hstep ih => exact schedStep_counts hstep ih.1 ih.2

/-! ## C4 — effective per-site worker cap -/

/-- A non-login site registered with `site_max_workers = 10`, larger
than the orchestrator's `max_workers = 5`. -/
def cfgOversized : String → SiteConfig :=
  fun _ => { requires_login := false, site_max_workers := 10 }

/-- A login site. -/
def cfgLogin : String → SiteConfig :=
  fun _ => { requires_login := true, site_max_workers := 10 }

/-- Five tasks of the oversized site, all running. -/
def stOversized5 : SchedState :=
  { tasks := List.replicate 5 ⟨"x", .running⟩, shutdown := false }

/-- One task of the login site, running. -/
def stLogin1 : SchedState :=
  { tasks := [⟨"y", .running⟩], shutdown := false }

theorem reach_oversized5 :
    SchedReach cfgOversized 5 (initSched ["x", "x", "x", "x", "x"])
      stOversized5 := by
  refine .head (SchedStep.pickup _ 0 ⟨"x", .queued⟩ rfl rfl rfl) ?_
  refine .head (SchedStep.start _ 0 ⟨"x", .waiting⟩ rfl rfl
    (by decide) (by decide)) ?_
  refine .head (SchedStep.pickup _ 1 ⟨"x", .queued⟩ rfl rfl rfl) ?_
  refine .head (SchedStep.start _ 1 ⟨"x", .waiting⟩ rfl rfl
    (by decide) (by decide)) ?_
  refine .head (SchedStep.pickup _ 2 ⟨"x", .queued⟩ rfl rfl rfl) ?_
  refine .head (SchedStep.start _ 2 ⟨"x", .waiting⟩ rfl rfl
    (by decide) (by decide)) ?_
  refine .head (SchedStep.pickup _ 3 ⟨"x", .queued⟩ rfl rfl rfl) ?_
  refine .head (SchedStep.start _ 3 ⟨"x", .waiting⟩ rfl rfl
    (by decide) (by decide)) ?_
  refine .head (SchedStep.pickup _ 4 ⟨"x", .queued⟩ rfl rfl rfl) ?_
  refine .head (SchedStep.start _ 4 ⟨"x", .waiting⟩ rfl rfl
    (by decide) (by decide)) ?_
  exact .refl

theorem reach_login1 :
    SchedReach cfgLogin 5 (initSched ["y"]) stLogin1 := by
  refine .head (SchedStep.pickup _ 0 ⟨"y", .queued⟩ rfl rfl rfl) ?_
  refine .head (SchedStep.start _ 0 ⟨"y", .waiting⟩ rfl rfl
    (by decide) (by decide)) ?_
  exact .refl

/-- C4: in every reachable scheduler state, a site's number of
concurrently running tasks is bounded by 1 when the site requires
login, and by `min site_max_workers max_workers` otherwise (the two
nested semaphores enforce the minimum even though
`SiteConfig.effective_max_workers` itself applies no global cap); the
bound is tight: a non-login site with `site_max_workers = 10` under
`max_workers = 5` reaches exactly 5 concurrently running tasks — the
global cap, not `site_max_workers` — and a login site reaches exactly
1. -/
theorem claim_C4_effective_worker_cap :
    (∀ (cfg : String → SiteConfig) (G : ℕ) (sites : List String)
        (s : SchedState) (site : String),
      SchedReach cfg G (initSched sites) s →
        runningCount s site ≤ min ((cfg site).effective_max_workers) G
        ∧ ((cfg site).requires_login → runningCount s site ≤ 1))
    ∧ (SchedReach cfgOversized 5 (initSched ["x", "x", "x", "x", "x"])
          stOversized5
        ∧ runningCount stOversized5 "x" = 5
        ∧ (cfgOversized "x").site_max_workers = 10
        ∧ min ((cfgOversized "x").effective_max_workers) 5 = 5)
    ∧ (SchedReach cfgLogin 5 (initSched ["y"]) stLogin1
        ∧ runningCount stLogin1 "y" = 1) := by
  refine ⟨?_, ⟨reach_oversized5, by decide, rfl, rfl⟩,
    reach_login1, by decide⟩
  intro cfg G sites s site h
  obtain ⟨hG, hsite⟩ := schedReach_counts h
  have h1 := hsite site
  have h2 := runningCount_le_totalRunning s site
  constructor
  · exact le_min h1 (le_trans h2 hG)
  · intro hlogin
    have : (cfg site).effective_max_workers = 1 := by
      unfold SiteConfig.effective_max_workers
      rw [hlogin]
      rfl
    omega

/-- Witness for C4 at a concrete reachable state (the initial state of
the oversized site via the empty step sequence). -/
theorem claim_C4_witness :
    SchedReach cfgOversized 5 (initSched ["x"]) (initSched ["x"])
    ∧ runningCount (initSched ["x"]) "x"
        ≤ min ((cfgOversized "x").effective_max_workers) 5 :=
  ⟨.refl,
    (claim_C4_effective_worker_cap.1 cfgOversized 5 ["x"]
      (initSched ["x"]) "x" .refl).1⟩

/-! ## C8 — task status lifecycle -/

/-- The status edges the source actually assigns, in
`SiteScheduler.enqueue` / `_process_task`: `queued → waiting` at the top
of `_process_task`, `waiting → running` once both semaphores are held,
and `running → completed | failed | cancelled` around the scraper call. -/
def statusEdgeOK (a b : TaskStatus) : Prop :=
  (a = .queued ∧ b = .waiting)
  ∨ (a = .waiting ∧ b = .running)
  ∨ (a = .running ∧ (b = .completed ∨ b = .failed ∨ b = .cancelled))

theorem schedStep_status {cfg : String → SiteConfig} {G : ℕ}
    {s s' : SchedState} (h : SchedStep cfg G s s') (i : ℕ) (t : STask)
    (ht : s.tasks.get? i = some t) :
    ∃ t', s'.tasks.get? i = some t' ∧ t'.site = t.site
      ∧ (t'.status = t.status ∨ statusEdgeOK t.status t'.status) := by
  cases h with
  | enqueue site =>
    refine ⟨t, ?_, rfl, Or.inl rfl⟩
    have hlen : i < s.tasks.length := (List.get?_eq_some.mp ht).1
    rw [List.get?_append hlen]
    exact ht
  | pickup j u hsh hu hq =>
    by_cases hij : j = i
    · subst hij
      have := get?_setStatus_self s.tasks j u .waiting hu
      rw [ht] at hu
      injection hu with hu
      subst hu
      exact ⟨{ t with status := .waiting }, this, rfl,
        Or.inr (Or.inl ⟨hq, rfl⟩)⟩
    · exact ⟨t, by rw [get?_setStatus_ne s.tasks j i _ hij]; exact ht,
        rfl, Or.inl rfl⟩
  | start j u hu hw hg hs =>
    by_cases hij : j = i
    · subst hij
      have := get?_setStatus_self s.tasks j u .running hu
      rw [ht] at hu
      injection hu with hu
      subst hu
      exact ⟨{ t with status := .running }, this, rfl,
        Or.inr (Or.inr (Or.inl ⟨hw, rfl⟩))⟩
    · exact ⟨t, by rw [get?_setStatus_ne s.tasks j i _ hij]; exact ht,
        rfl, Or.inl rfl⟩
  | complete j u hu hr =>
    by_cases hij : j = i
    · subst hij
      have := get?_setStatus_self s.tasks j u .completed hu
      rw [ht] at hu
      injection hu with hu
      subst hu
      exact ⟨{ t with status := .completed }, this, rfl,
        Or.inr (Or.inr (Or.inr ⟨hr, Or.inl rfl⟩))⟩
    · exact ⟨t, by rw [get?_setStatus_ne s.tasks j i _ hij]; exact ht,
        rfl, Or.inl rfl⟩
  | fail j u hu hr =>
    by_cases hij : j = i
    · subst hij
      have := get?_setStatus_self s.tasks j u .failed hu
      rw [ht] at hu
      injection hu with hu
      subst hu
      exact ⟨{ t with status := .failed }, this, rfl,
        Or.inr (Or.inr (Or.inr ⟨hr, Or.inr (Or.inl rfl)⟩))⟩
    · exact ⟨t, by rw [get?_setStatus_ne s.tasks j i _ hij]; exact ht,
        rfl, Or.inl rfl⟩
  | cancel j u hu hr =>
    by_cases hij : j = i
    · subst hij
      have := get?_setStatus_self s.tasks j u .cancelled hu
      rw [ht] at hu
      injection hu with hu
      subst hu
      exact ⟨{ t with status := .cancelled }, this, rfl,
        Or.inr (Or.inr (Or.inr ⟨hr, Or.inr (Or.inr rfl)⟩))⟩
    · exact ⟨t, by rw [get?_setStatus_ne s.tasks j i _ hij]; exact ht,
        rfl, Or.inl rfl⟩
  | requestShutdown => exact ⟨t, ht, rfl, Or.inl rfl⟩

/-- A task whose status is not among the ones a step moves
(`queued`/`waiting`/`running` depending on the constructor) is left
untouched; in particular terminal tasks never change, and once the
shutdown flag blocks `pickup`, queued tasks never change either. -/
theorem schedStep_untouched {cfg : String → SiteConfig} {G : ℕ}
    {s s' : SchedState} (h : SchedStep cfg G s s') (i : ℕ) (t : STask)
    (ht : s.tasks.get? i = some t)
    (hnw : t.status ≠ .waiting) (hnr : t.status ≠ .running)
    (hnq : t.status = .queued → s.shutdown = true) :
    s'.tasks.get? i = some t ∧ s'.shutdown = s.shutdown ∨
      s'.tasks.get? i = some t ∧ s'.shutdown = true := by
  cases h with
  | enqueue site =>
    have hlen : i < s.tasks.length := (List.get?_eq_some.mp ht).1
    exact Or.inl ⟨by rw [List.get?_append hlen]; exact ht, rfl⟩
  | pickup j u hsh hu hq =>
    by_cases hij : j = i
    · subst hij
      rw [ht] at hu
      injection hu with hu
      subst hu
      exact absurd (hnq hq) (by rw [hsh]; decide)
    · exact Or.inl ⟨by rw [get?_setStatus_ne s.tasks j i _ hij]; exact ht, rfl⟩
  | start j u hu hw hg hs =>
    by_cases hij : j = i
    · subst hij
      rw [ht] at hu
      injection hu with hu
      subst hu
      exact absurd hw hnw
    · exact Or.inl ⟨by rw [get?_setStatus_ne s.tasks j i _ hij]; exact ht, rfl⟩
  | complete j u hu hr =>
    by_cases hij : j = i
    · subst hij
      rw [ht] at hu
      injection hu with hu
      subst hu
      exact absurd hr hnr
    · exact Or.inl ⟨by rw [get?_setStatus_ne s.tasks j i _ hij]; exact ht, rfl⟩
  | fail j u hu hr =>
    by_cases hij : j = i
    · subst hij
      rw [ht] at hu
      injection hu with hu
      subst hu
      exact absurd hr hnr
    · exact Or.inl ⟨by rw [get?_setStatus_ne s.tasks j i _ hij]; exact ht, rfl⟩
  | cancel j u hu hr =>
    by_cases hij : j = i
    · subst hij
      rw [ht] at hu
      injection hu with hu
      subst hu
      exact absurd hr hnr
    · exact Or.inl ⟨by rw [get?_setStatus_ne s.tasks j i _ hij]; exact ht, rfl⟩
  | requestShutdown => exact Or.inr ⟨ht, rfl⟩

/-- Once the shutdown flag is set and a task is still `queued`, no
sequence of steps can ever change that task again. -/
theorem schedReach_queued_persists {cfg : String → SiteConfig} {G : ℕ}
    {s s' : SchedState} (h : SchedReach cfg G s s')
    (hsh : s.shutdown = true) (i : ℕ) (site : String)
    (ht : s.tasks.get? i = some ⟨site, .queued⟩) :
    s'.tasks.get? i = some ⟨site, .queued⟩ ∧ s'.shutdown = true := by
  induction h with
  | refl => exact ⟨ht, hsh⟩
  | tail hsteps hstep ih =>
    obtain ⟨ht', hsh'⟩ := ih
    have := schedStep_untouched hstep i ⟨site, .queued⟩ ht'
      (by simp) (by simp) (fun _ => hsh')
    rcases this with ⟨h1, h2⟩ | ⟨h1, h2⟩
    · exact ⟨h1, by rw [h2, hsh']⟩
    · exact ⟨h1, h2⟩

/-- Terminal statuses never change. -/
theorem schedReach_terminal_persists {cfg : String → SiteConfig} {G : ℕ}
    {s s' : SchedState} (h : SchedReach cfg G s s') (i : ℕ) (t : STask)
    (ht : s.tasks.get? i = some t)
    (hterm : t.status = .completed ∨ t.status = .failed
      ∨ t.status = .cancelled) :
    s'.tasks.get? i = some t := by
  induction h with
  | refl => exact ht
  | tail hsteps hstep ih =>
    have := schedStep_untouched hstep i t ih
      (by rcases hterm with h | h | h <;> rw [h] <;> decide)
      (by rcases hterm with h | h | h <;> rw [h] <;> decide)
      (by rcases hterm with h | h | h <;> rw [h] <;> intro hc <;> cases hc)
    rcases this with ⟨h1, _⟩ | ⟨h1, _⟩ <;> exact h1

/-- Any site configuration / global cap (irrelevant to the shutdown
behaviour). -/
def cfgPlain : String → SiteConfig := fun _ => {}

/-- The scheduler state right after `shutdown()` with one still-queued
task: the shutdown flag is set and the task was never picked up. -/
def stShutdownQueued : SchedState :=
  { tasks := [⟨"x", .queued⟩], shutdown := true }

/-- C8 counterexample: the claim says that on scheduler shutdown every
task that never reached `running` ends in status `cancelled`.  In the
source, `shutdown()` only sets `_shutdown_event` and no code path
assigns any status to a task that was never picked up: from the state
right after shutdown with one queued task — reachable via
`requestShutdown` — no sequence of steps can ever make that task
`cancelled`; it stays `queued` forever. -/
theorem claim_C8_counterexample :
    SchedStep cfgPlain 1 (initSched ["x"]) stShutdownQueued
    ∧ stShutdownQueued.shutdown = true
    ∧ (stShutdownQueued.tasks.get? 0).map STask.status = some .queued
    ∧ ¬ ∃ s' : SchedState, SchedReach cfgPlain 1 stShutdownQueued s'
        ∧ (s'.tasks.get? 0).map STask.status = some .cancelled := by
  refine ⟨SchedStep.requestShutdown (initSched ["x"]), rfl, rfl, ?_⟩
  rintro ⟨s', hr, hc⟩
  have := (schedReach_queued_persists hr rfl 0 "x" rfl).1
  rw [this] at hc
  simp at hc

/-- C8 amended: every status change follows the path
`queued → waiting → running → (completed | failed | cancelled)` with no
skipped or repeated state, and terminal statuses never change; however,
on scheduler shutdown a task that never reached `running` is **not**
marked `cancelled`: once the shutdown flag is set, a still-queued task
keeps status `queued` forever (`cancelled` is only assigned to tasks
cancelled while running). -/
theorem claim_C8_amended :
    (∀ (cfg : String → SiteConfig) (G : ℕ) (s s' : SchedState) (i : ℕ)
        (t : STask), SchedStep cfg G s s' → s.tasks.get? i = some t →
      ∃ t', s'.tasks.get? i = some t' ∧ t'.site = t.site
        ∧ (t'.status = t.status ∨ statusEdgeOK t.status t'.status))
    ∧ (∀ (cfg : String → SiteConfig) (G : ℕ) (s s' : SchedState) (i : ℕ)
        (t : STask), SchedReach cfg G s s' → s.tasks.get? i = some t →
        (t.status = .completed ∨ t.status = .failed
          ∨ t.status = .cancelled) →
        s'.tasks.get? i = some t)
    ∧ (∀ (cfg : String → SiteConfig) (G : ℕ) (s s' : SchedState) (i : ℕ)
        (site : String), SchedReach cfg G s s' → s.shutdown = true →
        s.tasks.get? i = some ⟨site, .queued⟩ →
        s'.tasks.get? i = some ⟨site, .queued⟩) :=
  ⟨fun _ _ _ _ i t hstep ht => schedStep_status hstep i t ht,
   fun _ _ _ _ i t hreach ht hterm =>
     schedReach_terminal_persists hreach i t ht hterm,
   fun _ _ _ _ i site hreach hsh ht =>
     (schedReach_queued_persists hreach hsh i site ht).1⟩

/-- Witness for C8's amended claim on concrete one-step data. -/
theorem claim_C8_amended_witness :
    SchedStep cfgPlain 1 (initSched ["x"]) stShutdownQueued
    ∧ (initSched ["x"]).tasks.get? 0 = some ⟨"x", .queued⟩
    ∧ (∃ t', stShutdownQueued.tasks.get? 0 = some t'
        ∧ t'.site = (⟨"x", .queued⟩ : STask).site
        ∧ (t'.status = (⟨"x", .queued⟩ : STask).status
            ∨ statusEdgeOK (⟨"x", .queued⟩ : STask).status t'.status))
    ∧ stShutdownQueued.tasks.get? 0 = some ⟨"x", .queued⟩ :=
  ⟨SchedStep.requestShutdown (initSched ["x"]), rfl,
   claim_C8_amended.1 cfgPlain 1 (initSched ["x"]) stShutdownQueued 0
     ⟨"x", .queued⟩ (SchedStep.requestShutdown (initSched ["x"])) rfl,
   claim_C8_amended.2.2 cfgPlain 1 stShutdownQueued stShutdownQueued 0
     "x" .refl rfl rfl⟩

/-! ## C5 — event-bus buffer bounds -/

theorem jobLookup_map_replace (m : List (String × List ScraperEvent))
    (j : String) (v : List ScraperEvent) (h : (jobLookup m j).isSome) :
    jobLookup (m.map (fun p => if p.1 = j then (j, v) else p)) j = some v := by
  induction m with
  | nil => simp [jobLookup] at h
  | cons a as ih =>
    simp only [jobLookup] at h
    by_cases ha : a.1 = j
    · simp [List.map_cons, if_pos ha, jobLookup]
    · rw [if_neg ha] at h
      simp only [List.map_cons, if_neg ha]
      simp only [jobLookup]
      rw [if_neg ha]
      exact ih h

theorem jobLookup_append_right (m : List (String × List ScraperEvent))
    (j : String) (v : List ScraperEvent) (h : jobLookup m j = none) :
    jobLookup (m ++ [(j, v)]) j = some v := by
  induction m with
  | nil => simp [jobLookup]
  | cons a as ih =>
    simp only [jobLookup] at h
    rw [List.cons_append]
    simp only [jobLookup]
    by_cases ha : a.1 = j
    · rw [if_pos ha] at h; cases h
    · rw [if_neg ha] at h
      rw [if_neg ha]
      exact ih h

theorem jobLookup_store_self (m : List (String × List ScraperEvent))
    (j : String) (v : List ScraperEvent) :
    jobLookup (jobStore m j v) j = some v := by
  unfold jobStore
  by_cases h : (jobLookup m j).isSome
  · rw [if_pos h]
    exact jobLookup_map_replace m j v h
  · rw [if_neg h]
    exact jobLookup_append_right m j v (Option.not_isSome_iff_eq_none.mp h)

theorem mem_key_isSome (m : List (String × List ScraperEvent))
    (p : String × List ScraperEvent) (hm : p ∈ m) (j : String)
    (hpj : p.1 = j) : (jobLookup m j).isSome := by
  induction m with
  | nil => cases hm
  | cons a as ih =>
    simp only [jobLookup]
    by_cases ha : a.1 = j
    · rw [if_pos ha]; rfl
    · rw [if_neg ha]
      rcases List.mem_cons.mp hm with rfl | hm'
      · exact absurd hpj ha
      · exact ih hm'

theorem mem_jobStore (m : List (String × List ScraperEvent))
    (j : String) (v : List ScraperEvent) (p : String × List ScraperEvent)
    (hp : p ∈ jobStore m j v) : p = (j, v) ∨ (p ∈ m ∧ p.1 ≠ j) := by
  unfold jobStore at hp
  by_cases h : (jobLookup m j).isSome
  · rw [if_pos h] at hp
    obtain ⟨q, hq, hqe⟩ := List.mem_map.mp hp
    by_cases hqj : q.1 = j
    · rw [if_pos hqj] at hqe; exact Or.inl hqe.symm
    · rw [if_neg hqj] at hqe; subst hqe; exact Or.inr ⟨hq, hqj⟩
  · rw [if_neg h] at hp
    rcases List.mem_append.mp hp with hm | hm
    · exact Or.inr ⟨hm, fun hpj => h (mem_key_isSome m p hm j hpj)⟩
    · exact Or.inl (List.mem_singleton.mp hm)

theorem mem_jobErase (m : List (String × List ScraperEvent)) (j : String)
    (p : String × List ScraperEvent) (hp : p ∈ jobErase m j) :
    p ∈ m ∧ p.1 ≠ j := by
  unfold jobErase at hp
  have := List.mem_filter.mp hp
  exact ⟨this.1, by simpa using this.2⟩

theorem jobLookup_isSome_mem_keys (m : List (String × List ScraperEvent))
    (j : String) (h : (jobLookup m j).isSome) :
    ∃ p ∈ m, p.1 = j := by
  induction m with
  | nil => simp [jobLookup] at h
  | cons a as ih =>
    unfold jobLookup at h
    by_cases ha : a.1 = j
    · exact ⟨a, List.mem_cons_self a as, ha⟩
    · rw [if_neg ha] at h
      obtain ⟨p, hp, hpj⟩ := ih h
      exact ⟨p, List.mem_cons_of_mem a hp, hpj⟩

/-- The buffering invariant of the module-level default bus: its sizes
are the defaults, the global buffer holds at most `buffer_size = 1000`
events, each per-job buffer holds at most `buffer_size = 1000` events,
at most `max_jobs = 100` job buffers are live, and every buffered job
is tracked in the LRU order list. -/
def busInvDefault (bus : EventBus) : Prop :=
  bus.buffer_size = 1000 ∧ bus.max_jobs = 100
  ∧ bus.events.length ≤ 1000
  ∧ (∀ p ∈ bus.job_events, p.2.length ≤ 1000)
  ∧ bus.job_order.length ≤ 100
  ∧ (∀ p ∈ bus.job_events, p.1 ∈ bus.job_order)

instance (bus : EventBus) : Decidable (busInvDefault bus) := by
  unfold busInvDefault
  infer_instance


theorem jobLookup_erase_self (m : List (String × List ScraperEvent))
    (j : String) : jobLookup (jobErase m j) j = none := by
  induction m with
  | nil => rfl
  | cons a as ih =>
    unfold jobErase at ih ⊢
    by_cases ha : a.1 = j
    · simpa [List.filter, ha] using ih
    · simpa [List.filter, ha, jobLookup] using ih

theorem jobLookup_map_replace_ne (m : List (String × List ScraperEvent))
    (j k : String) (v : List ScraperEvent) (h : k ≠ j) :
    jobLookup (m.map (fun p => if p.1 = j then (j, v) else p)) k
      = jobLookup m k := by
  induction m with
  | nil => rfl
  | cons a as ih =>
    simp only [List.map_cons]
    by_cases ha : a.1 = j
    · rw [if_pos ha]
      simp only [jobLookup]
      rw [if_neg (fun hk => h hk.symm), if_neg (by rw [ha]; exact fun hk => h hk.symm)]
      exact ih
    · rw [if_neg ha]
      simp only [jobLookup]
      by_cases hak : a.1 = k
      · rw [if_pos hak, if_pos hak]
      · rw [if_neg hak, if_neg hak]
        exact ih

theorem jobLookup_append_ne (m : List (String × List ScraperEvent))
    (j k : String) (v : List ScraperEvent) (h : k ≠ j) :
    jobLookup (m ++ [(j, v)]) k = jobLookup m k := by
  induction m with
  | nil =>
    simp only [List.nil_append, jobLookup]
    rw [if_neg (fun hk => h hk.symm)]
  | cons a as ih =>
    rw [List.cons_append]
    simp only [jobLookup]
    by_cases hak : a.1 = k
    · rw [if_pos hak, if_pos hak]
    · rw [if_neg hak, if_neg hak]
      exact ih

theorem jobLookup_store_ne (m : List (String × List ScraperEvent))
    (j k : String) (v : List ScraperEvent) (h : k ≠ j) :
    jobLookup (jobStore m j v) k = jobLookup m k := by
  unfold jobStore
  by_cases hs : (jobLookup m j).isSome
  · rw [if_pos hs]
    exact jobLookup_map_replace_ne m j k v h
  · rw [if_neg hs]
    exact jobLookup_append_ne m j k v h

theorem emitTrimGlobal_fields (bus : EventBus) (e : ScraperEvent) :
    (emitTrimGlobal bus e).buffer_size = bus.buffer_size
    ∧ (emitTrimGlobal bus e).max_jobs = bus.max_jobs
    ∧ (emitTrimGlobal bus e).job_events = bus.job_events
    ∧ (emitTrimGlobal bus e).job_order = bus.job_order :=
  ⟨rfl, rfl, rfl, rfl⟩

theorem emitTrimGlobal_events_len (bus : EventBus) (e : ScraperEvent)
    (hbs : 1 ≤ bus.buffer_size) :
    (emitTrimGlobal bus e).events.length ≤ bus.buffer_size := by
  unfold emitTrimGlobal
  dsimp only
  split
  · exact pyLastSlice_length_le _ _ hbs
  · rename_i hle
    rw [Nat.not_lt] at hle
    exact hle

theorem emit_eq_nojob (bus : EventBus) (e : ScraperEvent)
    (hj : pyTruthyStr e.job_id = false) :
    emit bus e = emitTrimGlobal bus e := by
  unfold emit
  rw [hj]
  simp

theorem emit_eq_job (bus : EventBus) (e : ScraperEvent) (j : String)
    (hj : e.job_id = some j) (hne : j ≠ "") :
    emit bus e = emitJobAppend (emitJobReorder (emitTrimGlobal bus e) j) e j := by
  unfold emit
  rw [hj]
  simp [pyTruthyStr, hne]

theorem emitJobReorder_new_full (bus : EventBus) (j : String)
    (oldest : String) (rest : List String)
    (hnew : jobLookup bus.job_events j = none)
    (horder : bus.job_order = oldest :: rest)
    (hfull : bus.job_order.length ≥ bus.max_jobs) :
    emitJobReorder bus j
      = { bus with
          job_events := jobStore (jobErase bus.job_events oldest) j [],
          job_order := rest ++ [j] } := by
  unfold emitJobReorder
  rw [if_pos hnew, if_pos hfull, horder]

theorem emitJobReorder_new_notfull (bus : EventBus) (j : String)
    (hnew : jobLookup bus.job_events j = none)
    (hnotfull : ¬ bus.job_order.length ≥ bus.max_jobs) :
    emitJobReorder bus j
      = { bus with job_events := jobStore bus.job_events j [],
                   job_order := bus.job_order ++ [j] } := by
  unfold emitJobReorder
  rw [if_pos hnew, if_neg hnotfull]

theorem emitJobReorder_existing (bus : EventBus) (j : String)
    (hsome : (jobLookup bus.job_events j).isSome) :
    emitJobReorder bus j
      = (if bus.job_order.getLast? ≠ some j then
          { bus with job_order := (bus.job_order.erase j) ++ [j] }
        else bus) := by
  unfold emitJobReorder
  rw [if_neg (by rw [Option.isSome_iff_ne_none] at hsome; exact hsome)]

theorem emitJobAppend_fields (bus : EventBus) (e : ScraperEvent)
    (j : String) :
    (emitJobAppend bus e j).buffer_size = bus.buffer_size
    ∧ (emitJobAppend bus e j).max_jobs = bus.max_jobs
    ∧ (emitJobAppend bus e j).events = bus.events
    ∧ (emitJobAppend bus e j).job_order = bus.job_order
    ∧ (emitJobAppend bus e j).job_events
        = jobStore bus.job_events j
            (let buf := (jobLookup bus.job_events j).getD [] ++ [e]
             if buf.length > bus.buffer_size then
               pyLastSlice bus.buffer_size buf
             else buf) :=
  ⟨rfl, rfl, rfl, rfl, rfl⟩

/-- One `emit` preserves the default bus's buffering invariant. -/
theorem emit_preserves_busInvDefault (bus : EventBus) (e : ScraperEvent)
    (h : busInvDefault bus) : busInvDefault (emit bus e) := by
  obtain ⟨hB, hM, hglen, hjlen, holen, hkeys⟩ := h
  have hbs : 1 ≤ bus.buffer_size := by omega
  -- the global paragraph
  have h1len : (emitTrimGlobal bus e).events.length ≤ 1000 := by
    have := emitTrimGlobal_events_len bus e hbs
    rw [hB] at this
    exact this
  have h1B : (emitTrimGlobal bus e).buffer_size = 1000 := hB
  have h1M : (emitTrimGlobal bus e).max_jobs = 100 := hM
  cases hpy : pyTruthyStr e.job_id with
  | false =>
    rw [emit_eq_nojob bus e hpy]
    exact ⟨h1B, h1M, h1len, hjlen, holen, hkeys⟩
  | true =>
    match hjid : e.job_id with
    | none => rw [hjid] at hpy; cases hpy
    | some j =>
      have hne : j ≠ "" := by
        rw [hjid] at hpy
        simpa [pyTruthyStr] using hpy
      rw [emit_eq_job bus e j hjid hne]
      set bus1 := emitTrimGlobal bus e with hb1
      have h1jev : bus1.job_events = bus.job_events := rfl
      have h1jord : bus1.job_order = bus.job_order := rfl
      -- facts about the reordered bus, by cases
      have hre : (emitJobReorder bus1 j).buffer_size = 1000
          ∧ (emitJobReorder bus1 j).max_jobs = 100
          ∧ (emitJobReorder bus1 j).events.length ≤ 1000
          ∧ (∀ p ∈ (emitJobReorder bus1 j).job_events, p.2.length ≤ 1000)
          ∧ (emitJobReorder bus1 j).job_order.length ≤ 100
          ∧ (∀ p ∈ (emitJobReorder bus1 j).job_events,
              p.1 ∈ (emitJobReorder bus1 j).job_order)
          ∧ j ∈ (emitJobReorder bus1 j).job_order := by
        by_cases hnew : jobLookup bus1.job_events j = none
        · by_cases hfull : bus1.job_order.length ≥ bus1.max_jobs
          · match hord : bus1.job_order with
            | [] =>
              exfalso
              rw [hord] at hfull
              rw [h1M] at hfull
              simp at hfull
            | oldest :: rest =>
              rw [emitJobReorder_new_full bus1 j oldest rest hnew hord hfull]
              refine ⟨h1B, h1M, h1len, ?_, ?_, ?_, ?_⟩
              · intro p hp
                rcases mem_jobStore _ _ _ p hp with rfl | ⟨hp', _⟩
                · simp
                · have := (mem_jobErase _ _ p hp').1
                  rw [h1jev] at this
                  exact hjlen p this
              · simp only [List.length_append, List.length_singleton]
                have : bus.job_order.length ≤ 100 := holen
                rw [h1jord] at hord
                rw [hord] at this
                simp at this
                omega
              · intro p hp
                rcases mem_jobStore _ _ _ p hp with rfl | ⟨hp', hpne⟩
                · simp
                · obtain ⟨hp'', hpnold⟩ := mem_jobErase _ _ p hp'
                  rw [h1jev] at hp''
                  have := hkeys p hp''
                  rw [← h1jord, hord] at this
                  rcases List.mem_cons.mp this with hq | hq
                  · exact absurd hq hpnold
                  · exact List.mem_append_left _ hq
              · exact List.mem_append_right _ (List.mem_singleton_self j)
          · rw [emitJobReorder_new_notfull bus1 j hnew hfull]
            refine ⟨h1B, h1M, h1len, ?_, ?_, ?_, ?_⟩
            · intro p hp
              rcases mem_jobStore _ _ _ p hp with rfl | ⟨hp', _⟩
              · simp
              · rw [h1jev] at hp'
                exact hjlen p hp'
            · simp only [List.length_append, List.length_singleton]
              rw [h1M] at hfull
              omega
            · intro p hp
              rcases mem_jobStore _ _ _ p hp with rfl | ⟨hp', _⟩
              · simp
              · rw [h1jev] at hp'
                exact List.mem_append_left _ (by rw [h1jord]; exact hkeys p hp')
            · exact List.mem_append_right _ (List.mem_singleton_self j)
        · have hsome : (jobLookup bus1.job_events j).isSome :=
            Option.ne_none_iff_isSome.mp hnew
          have hjmem : j ∈ bus1.job_order := by
            obtain ⟨p, hp, hpj⟩ := jobLookup_isSome_mem_keys _ _ hsome
            rw [h1jev] at hp
            rw [h1jord]
            rw [← hpj]
            exact hkeys p hp
          rw [emitJobReorder_existing bus1 j hsome]
          by_cases hlast : bus1.job_order.getLast? ≠ some j
          · rw [if_pos hlast]
            refine ⟨h1B, h1M, h1len, ?_, ?_, ?_, ?_⟩
            · intro p hp
              rw [h1jev] at hp
              exact hjlen p hp
            · simp only [List.length_append, List.length_singleton]
              have := List.length_erase_of_mem hjmem
              rw [h1jord] at this ⊢
              rw [this]
              have hpos : 1 ≤ bus.job_order.length :=
                List.length_pos.mpr (List.ne_nil_of_mem (by rw [← h1jord]; exact hjmem))
              omega
            · intro p hp
              rw [h1jev] at hp
              by_cases hpj : p.1 = j
              · rw [hpj]
                exact List.mem_append_right _ (List.mem_singleton_self j)
              · refine List.mem_append_left _ ?_
                rw [h1jord]
                exact (List.mem_erase_of_ne hpj).mpr (by rw [← h1jord]; exact hkeys p hp)
            · exact List.mem_append_right _ (List.mem_singleton_self j)
          · rw [if_neg hlast]
            refine ⟨h1B, h1M, h1len, ?_, ?_, ?_, ?_⟩
            · intro p hp
              rw [h1jev] at hp
              exact hjlen p hp
            · rw [h1jord]; exact holen
            · intro p hp
              rw [h1jev] at hp
              rw [h1jord]
              exact hkeys p hp
            · exact hjmem
      -- the append paragraph
      obtain ⟨h2B, h2M, h2len, h2jlen, h2olen, h2keys, h2jmem⟩ := hre
      set bus2 := emitJobReorder bus1 j with hb2
      obtain ⟨h3B, h3M, h3ev, h3ord, h3jev⟩ := emitJobAppend_fields bus2 e j
      have h2bs : 1 ≤ bus2.buffer_size := by omega
      refine ⟨by rw [h3B, h2B], by rw [h3M, h2M], by rw [h3ev]; exact h2len,
        ?_, by rw [h3ord]; exact h2olen, ?_⟩
      · intro p hp
        rw [h3jev] at hp
        rcases mem_jobStore _ _ _ p hp with rfl | ⟨hp', _⟩
        · dsimp only
          split
          · exact le_trans (pyLastSlice_length_le _ _ h2bs) (by omega)
          · rename_i hle
            rw [Nat.not_lt] at hle
            omega
        · exact h2jlen p hp'
      · intro p hp
        rw [h3jev] at hp
        rw [h3ord]
        rcases mem_jobStore _ _ _ p hp with rfl | ⟨hp', _⟩
        · exact h2jmem
        · exact h2keys p hp'

/-- When a truthy new job arrives at the `max_jobs` limit, `emit` pops
the least-recently-used job (the head of `_job_order`) and drops its
buffer, then creates the new job's buffer with just the new event. -/
theorem emit_evicts_lru (bus : EventBus) (e : ScraperEvent)
    (j oldest : String) (rest : List String)
    (hj : e.job_id = some j) (hne : j ≠ "")
    (hnew : jobLookup bus.job_events j = none)
    (horder : bus.job_order = oldest :: rest)
    (hfull : bus.job_order.length ≥ bus.max_jobs)
    (hbs : 1 ≤ bus.buffer_size) (hoj : oldest ≠ j) :
    (emit bus e).job_order = rest ++ [j]
    ∧ jobLookup (emit bus e).job_events oldest = none
    ∧ jobLookup (emit bus e).job_events j = some [e] := by
  rw [emit_eq_job bus e j hj hne]
  rw [emitJobReorder_new_full (emitTrimGlobal bus e) j oldest rest hnew
    horder hfull]
  unfold emitJobAppend
  dsimp only
  rw [jobLookup_store_self]
  simp only [Option.getD_some, List.nil_append, List.length_singleton]
  rw [if_neg (by simpa using not_lt.mpr hbs)]
  refine ⟨by trivial, ?_, ?_⟩
  · rw [jobLookup_store_ne _ _ _ _ hoj, jobLookup_store_ne _ _ _ _ hoj,
      jobLookup_erase_self]
  · rw [jobLookup_store_self]

/-- `n` successive emits of the same event. -/
def emitN (e : ScraperEvent) : ℕ → EventBus → EventBus
  | 0, bus => bus
  | n + 1, bus => emit (emitN e n bus) e

/-- The default bus after `k` emits of one event for job `j`
(for 1 ≤ k ≤ 1000): `k` events in the global buffer and `k` events in
job `j`'s buffer. -/
def busAfterN (e : ScraperEvent) (j : String) (k : ℕ) : EventBus :=
  { buffer_size := 1000, max_jobs := 100, events := List.replicate k e,
    job_events := [(j, List.replicate k e)], job_order := [j] }

theorem emit_default_first (e : ScraperEvent) (j : String)
    (hj : e.job_id = some j) (hne : j ≠ "") :
    emit defaultEventBus e = busAfterN e j 1 := by
  rw [emit_eq_job _ e j hj hne]
  unfold emitTrimGlobal defaultEventBus
  dsimp only
  rw [if_neg (by simp)]
  rw [emitJobReorder_new_notfull _ j (by simp [jobLookup]) (by simp)]
  unfold emitJobAppend
  dsimp only
  rw [show jobStore ([] : List (String × List ScraperEvent)) j [] = [(j, [])]
    from rfl]
  rw [show jobLookup [(j, ([] : List ScraperEvent))] j = some [] from by
    simp [jobLookup]]
  simp only [Option.getD_some, List.nil_append, List.length_singleton]
  rw [if_neg (by simp)]
  unfold jobStore
  simp [jobLookup, busAfterN]

theorem emit_busAfterN (e : ScraperEvent) (j : String)
    (hj : e.job_id = some j) (hne : j ≠ "") (k : ℕ) (hk : k + 1 ≤ 1000) :
    emit (busAfterN e j k) e = busAfterN e j (k + 1) := by
  rw [emit_eq_job _ e j hj hne]
  unfold emitTrimGlobal busAfterN
  dsimp only
  rw [if_neg (by simp; omega)]
  rw [emitJobReorder_existing _ j (by simp [jobLookup])]
  rw [if_neg (by simp)]
  unfold emitJobAppend
  dsimp only
  rw [show jobLookup [(j, List.replicate k e)] j = some (List.replicate k e)
    from by simp [jobLookup]]
  simp only [Option.getD_some]
  rw [if_neg (by simp; omega)]
  unfold jobStore
  simp [jobLookup, List.replicate_succ']

theorem emitN_busAfterN (e : ScraperEvent) (j : String)
    (hj : e.job_id = some j) (hne : j ≠ "") :
    ∀ k, 1 ≤ k → k ≤ 1000 → emitN e k defaultEventBus = busAfterN e j k := by
  intro k
  induction k with
  | zero => omega
  | succ n ih =>
    intro _ hk
    by_cases hn : n = 0
    · subst hn
      unfold emitN emitN
      exact emit_default_first e j hj hne
    · unfold emitN
      rw [ih (by omega) (by omega)]
      exact emit_busAfterN e j hj hne n hk

/-- The event emitted 501 times in the counterexample. -/
def eC5 : ScraperEvent :=
  { event_type := "sku.processing", timestamp := "t1",
    job_id := some "j", event_id := "e1" }

/-- C5 counterexample: after 501 emits for one job, the default bus's
per-job buffer holds 501 events — more than the 500 the claim allows.
The per-job trim uses the bus's `buffer_size`, which the default bus
overrides to 1000; the 500 default is unused. -/
theorem claim_C5_counterexample :
    ((jobLookup (emitN eC5 501 defaultEventBus).job_events "j").getD
      []).length = 501
    ∧ ¬ ((501 : ℕ) ≤ 500) := by
  constructor
  · rw [emitN_busAfterN eC5 "j" rfl (by decide) 501 (by omega) (by omega)]
    simp [busAfterN, jobLookup]
  · decide

/-- C5 amended: after every emit the default event bus retains at most
the last 1000 events in its global buffer and at most the last **1000**
events per job — the per-job trim uses the bus's `buffer_size`, which
the default bus constructs as 1000, so the 500 per-job default is
overridden, not 500 as claimed — and when an event for a new job
arrives with the 100-job limit reached, the least-recently-used job's
buffer is evicted so at most 100 job buffers remain. -/
theorem claim_C5_amended :
    (∀ (bus : EventBus) (e : ScraperEvent),
      busInvDefault bus → busInvDefault (emit bus e))
    ∧ (∀ (bus : EventBus) (e : ScraperEvent) (j oldest : String)
        (rest : List String),
        busInvDefault bus → e.job_id = some j → j ≠ "" →
        jobLookup bus.job_events j = none →
        bus.job_order = oldest :: rest →
        bus.job_order.length ≥ bus.max_jobs → oldest ≠ j →
        (emit bus e).job_order = rest ++ [j]
        ∧ jobLookup (emit bus e).job_events oldest = none
        ∧ jobLookup (emit bus e).job_events j = some [e])
    ∧ busInvDefault defaultEventBus := by
  refine ⟨emit_preserves_busInvDefault, ?_, by decide⟩
  intro bus e j oldest rest hinv hj hne hnew horder hfull hoj
  exact emit_evicts_lru bus e j oldest rest hj hne hnew horder hfull
    (by obtain ⟨hB, _⟩ := hinv; omega) hoj

/-- A full default-sized bus: 100 live jobs `"j0" :: "j1" ... "j99"`,
each with an empty buffer. -/
def busFull100 : EventBus :=
  { buffer_size := 1000, max_jobs := 100, events := [],
    job_events := ("j0" :: (List.range 99).map
      (fun n => "j" ++ natRepr (n + 1))).map (fun s => (s, [])),
    job_order := "j0" :: (List.range 99).map
      (fun n => "j" ++ natRepr (n + 1)) }

/-- Witness for C5's amended claim: the invariant holds of the default
bus and is preserved by a concrete emit, and on a concrete full bus a
new job's event evicts the LRU job `"j0"`. -/
theorem claim_C5_amended_witness :
    busInvDefault defaultEventBus
    ∧ busInvDefault (emit defaultEventBus eC5)
    ∧ (busInvDefault busFull100
        ∧ eC5.job_id = some "j"
        ∧ jobLookup busFull100.job_events "j" = none
        ∧ busFull100.job_order.length ≥ busFull100.max_jobs
        ∧ (emit busFull100 eC5).job_order
            = ((List.range 99).map (fun n => "j" ++ natRepr (n + 1))) ++ ["j"]
        ∧ jobLookup (emit busFull100 eC5).job_events "j0" = none
        ∧ jobLookup (emit busFull100 eC5).job_events "j" = some [eC5]) :=
  ⟨by decide,
   claim_C5_amended.1 defaultEventBus eC5 (by decide),
   by decide, rfl, by decide, by decide,
   (claim_C5_amended.2.1 busFull100 eC5 "j" "j0"
      ((List.range 99).map (fun n => "j" ++ natRepr (n + 1)))
      (by decide) rfl (by decide) (by decide) rfl (by decide) (by decide)).1,
   (claim_C5_amended.2.1 busFull100 eC5 "j" "j0"
      ((List.range 99).map (fun n => "j" ++ natRepr (n + 1)))
      (by decide) rfl (by decide) (by decide) rfl (by decide) (by decide)).2.1,
   (claim_C5_amended.2.1 busFull100 eC5 "j" "j0"
      ((List.range 99).map (fun n => "j" ++ natRepr (n + 1)))
      (by decide) rfl (by decide) (by decide) rfl (by decide) (by decide)).2.2⟩

/-! ## C9 — get_events falls back to the global buffer -/

/-- A bus holding one event of job "A" (via a real emit), queried for
the absent job "B". -/
def busOneJobA : EventBus :=
  emit defaultEventBus
    { event_type := "sku.processing", timestamp := "t1",
      job_id := some "A", event_id := "e1" }

/-- C9: `get_events` called with a `job_id` that has no per-job buffer
does not return an empty list: the per-job branch is skipped and the
query runs over the whole global buffer, so the result can contain
events of other jobs.  Concretely, after one event of job "A", querying
job "B" returns that job-"A" event. -/
theorem claim_C9_get_events_fallback :
    (∀ (bus : EventBus) (j : String) (event_types : Option (List String))
        (since : Option String) (limit : ℕ),
      jobLookup bus.job_events j = none →
      getEvents bus (some j) event_types since limit
        = getEvents bus none event_types since limit)
    ∧ (getEvents busOneJobA (some "B") none none 100
        = [{ event_type := "sku.processing", timestamp := "t1",
             job_id := some "A", event_id := "e1" }]
      ∧ (some "A" : Option String) ≠ some "B"
      ∧ getEvents busOneJobA (some "B") none none 100 ≠ []) := by
  constructor
  · intro bus j event_types since limit hnone
    unfold getEvents
    simp [hnone]
  · exact ⟨by decide, by decide, by decide⟩

/-- Witness for C9 on the concrete bus: job "B" has no buffer, and the
query for "B" equals the global query. -/
theorem claim_C9_witness :
    jobLookup busOneJobA.job_events "B" = none
    ∧ getEvents busOneJobA (some "B") none none 100
        = getEvents busOneJobA none none none 100 :=
  ⟨by decide,
   claim_C9_get_events_fallback.1 busOneJobA "B" none none 100 (by decide)⟩

/-! ## C6 — weight normalization -/

/-- The conversion factors exactly as the spec words them: lb=1,
oz÷16, kg×2.20462, g×0.00220462 (spec-side definition, to be compared
with the code's `convertWeight`). -/
def specWeightFactor (unit : String) : ℚ :=
  if unit = "oz" then 1 / 16
  else if unit = "kg" then 220462 / 100000
  else if unit = "g" then 220462 / 100000000
  else 1

/-- C6: the `extract_weight` normalization parses a number-plus-unit
string to pounds with factors lb=1, oz÷16, kg×2.20462, g×0.00220462 and
renders two decimals: "5 lbs" ↦ "5.00", "16 oz" ↦ "1.00",
"1 kg" ↦ "2.20"; and on every parsed weight the code's conversion is
exactly multiplication by the spec's factor. -/
theorem claim_C6_weight_normalization :
    normalizeExtractWeight "5 lbs" = "5.00"
    ∧ normalizeExtractWeight "16 oz" = "1.00"
    ∧ normalizeExtractWeight "1 kg" = "2.20"
    ∧ (∀ (w : ℚ) (u : String), convertWeight w u = w * specWeightFactor u) := by
  refine ⟨?_, ?_, ?_, ?_⟩
  · have hp : findWeightMatch "5 lbs".toList = some ((5, 0, 0), "lbs") := by
      decide
    unfold normalizeExtractWeight
    rw [hp]
    dsimp only
    have hconv : convertWeight (ratOfMatch 5 0 0) "lbs" = 5 := by
      unfold convertWeight ratOfMatch
      rw [if_neg (by decide), if_neg (by decide), if_neg (by decide)]
      norm_num
    rw [hconv]
    unfold formatTwoDec
    have hr : roundHalfEven ((5 : ℚ) * 100) = 500 := by
      unfold roundHalfEven
      norm_num
    rw [hr]
    decide
  · have hp : findWeightMatch "16 oz".toList = some ((16, 0, 0), "oz") := by
      decide
    unfold normalizeExtractWeight
    rw [hp]
    dsimp only
    have hconv : convertWeight (ratOfMatch 16 0 0) "oz" = 1 := by
      unfold convertWeight ratOfMatch
      rw [if_pos rfl]
      norm_num
    rw [hconv]
    unfold formatTwoDec
    have hr : roundHalfEven ((1 : ℚ) * 100) = 100 := by
      unfold roundHalfEven
      norm_num
    rw [hr]
    decide
  · have hp : findWeightMatch "1 kg".toList = some ((1, 0, 0), "kg") := by
      decide
    unfold normalizeExtractWeight
    rw [hp]
    dsimp only
    have hconv : convertWeight (ratOfMatch 1 0 0) "kg" = 220462 / 100000 := by
      unfold convertWeight ratOfMatch
      rw [if_neg (by decide), if_pos rfl]
      norm_num
    rw [hconv]
    unfold formatTwoDec
    have hr : roundHalfEven ((220462 / 100000 : ℚ) * 100) = 220 := by
      unfold roundHalfEven
      norm_num
    rw [hr]
    decide
  · intro w u
    unfold convertWeight specWeightFactor
    by_cases h1 : u = "oz"
    · rw [if_pos h1, if_pos h1]
      exact div_eq_mul_one_div w 16
    · rw [if_neg h1, if_neg h1]
      by_cases h2 : u = "kg"
      · rw [if_pos h2, if_pos h2]
      · rw [if_neg h2, if_neg h2]
        by_cases h3 : u = "g"
        · rw [if_pos h3, if_pos h3]
        · rw [if_neg h3, if_neg h3]
          exact (mul_one w).symm

/-! ## C7 — classifier totality and the unknown default -/

theorem classifyLoop_none (s : String) (kinds : List FailureType)
    (h : ∀ ft ∈ kinds,
      (failureTextPatterns ft).any (fun p => rxSearch p s) = false) :
    classifyLoop s kinds = none := by
  induction kinds with
  | nil => rfl
  | cons ft rest ih =>
    unfold classifyLoop textMatchConfidence
    rw [h ft (List.mem_cons_self ft rest)]
    simp only [Bool.false_eq_true, if_false]
    rw [if_neg (by norm_num : ¬ ((0 : ℚ) > 1 / 2))]
    exact ih (fun ft' hft' => h ft' (List.mem_cons_of_mem _ hft'))

theorem classifyLoop_confidence (s : String) (kinds : List FailureType)
    (fc : FailureContextFC) (h : classifyLoop s kinds = some fc) :
    fc.confidence = 7 / 10 := by
  induction kinds with
  | nil => cases h
  | cons ft rest ih =>
    unfold classifyLoop at h
    by_cases hany :
        (failureTextPatterns ft).any (fun p => rxSearch p s) = true
    · rw [show textMatchConfidence s (failureTextPatterns ft) = 7 / 10 from by
        unfold textMatchConfidence; rw [if_pos hany]] at h
      rw [if_pos (by norm_num)] at h
      injection h with h
      rw [← h]
    · rw [show textMatchConfidence s (failureTextPatterns ft) = 0 from by
        unfold textMatchConfidence
        rw [if_neg (by simpa using hany)]] at h
      rw [if_neg (by norm_num)] at h
      exact ih h

/-- C7: `classify_exception` is a total function — every exception
input yields exactly one `FailureType` with a confidence in [0, 1] —
and an exception matching none of the exception-type rules (timeout,
element-missing, network) and none of the consulted per-kind message
patterns is classified `network_error` with confidence 0.3 and the
`retry` recovery strategy. -/
theorem claim_C7_classifier_total :
    (∀ exc : PyException,
      0 ≤ (classifyExceptionFC exc).confidence
      ∧ (classifyExceptionFC exc).confidence ≤ 1)
    ∧ (∀ exc : PyException,
        (pyIn "Timeout" exc.ty || pyIn "Timeout" (strLower exc.msg))
          = false →
        (pyIn "element" (strLower exc.msg)
          && (pyIn "not found" (strLower exc.msg)
            || pyIn "unable to find" (strLower exc.msg))) = false →
        (pyIn "connection" (strLower exc.msg)
          || pyIn "network" (strLower exc.msg)
          || pyIn "timeout" (strLower exc.msg)
          || pyIn "econn" (strLower exc.msg)
          || pyIn "target closed" (strLower exc.msg)) = false →
        (∀ ft ∈ consultedKinds,
          (failureTextPatterns ft).any
            (fun p => rxSearch p (strLower exc.msg)) = false) →
        classifyExceptionFC exc
          = ⟨.NETWORK_ERROR, 3 / 10, "retry"⟩) := by
  constructor
  · intro exc
    unfold classifyExceptionFC
    dsimp only
    split
    · exact ⟨by norm_num, by norm_num⟩
    · split
      · exact ⟨by norm_num, by norm_num⟩
      · split
        · exact ⟨by norm_num, by norm_num⟩
        · rcases hm : classifyLoop (strLower exc.msg) consultedKinds
            with _ | fc
          · exact ⟨by norm_num, by norm_num⟩
          · have := classifyLoop_confidence _ _ _ hm
            dsimp only
            rw [this]
            exact ⟨by norm_num, by norm_num⟩
  · intro exc h1 h2 h3 h4
    unfold classifyExceptionFC
    dsimp only
    rw [if_neg (by rw [h1]; simp), if_neg (by rw [h2]; simp),
      if_neg (by rw [h3]; simp)]
    rw [classifyLoop_none _ _ h4]

/-- Witness for C7's default rule at the unclassifiable exception
`ValueError("qqq")`. -/
theorem claim_C7_witness :
    (pyIn "Timeout" "ValueError" || pyIn "Timeout" (strLower "qqq")) = false
    ∧ (∀ ft ∈ consultedKinds,
        (failureTextPatterns ft).any
          (fun p => rxSearch p (strLower "qqq")) = false)
    ∧ classifyExceptionFC ⟨"ValueError", "qqq"⟩
        = ⟨.NETWORK_ERROR, 3 / 10, "retry"⟩ :=
  ⟨by decide, by decide,
   claim_C7_classifier_total.2 ⟨"ValueError", "qqq"⟩
     (by decide) (by decide) (by decide) (by decide)⟩

/-! ## C10 — a recovery handler that always succeeds starves the
attempt counter -/

theorem retryLoop_recovery_diverges (env : RetryEnv)
    (cfg : CircuitBreakerConfig) (now : ℚ) (maxR : ℕ)
    (cb : CircuitBreakerState) (exc : PyException) (h : ℕ → Bool)
    (hop : ∀ n, env.op n = .raises exc)
    (hmax : 1 ≤ maxR)
    (hh : ∀ n, h n = true) :
    ∀ (fuel : ℕ) (ctx : ErrorContext) (td : ℚ) (iter : ℕ)
      (le : Option ScraperError) (lft : Option FailureType),
      isRetryable (classifyException exc
        { ctx with retry_count := 0, max_retries := maxR }) = true →
      env.recovery (mapToFailureType (classifyException exc
        { ctx with retry_count := 0, max_retries := maxR })) = some h →
      retryLoop env cfg now ctx maxR fuel 0 td iter le lft cb = none := by
  intro fuel
  induction fuel with
  | zero => intro ctx td iter le lft _ _; rfl
  | succ fuel ih =>
    intro ctx td iter le lft hretry hrec
    unfold retryLoop
    rw [if_neg (by omega : ¬ (0 > maxR))]
    dsimp only
    rw [hop iter]
    dsimp only
    rw [if_neg (not_not_intro hretry)]
    rw [if_neg (by omega : ¬ (0 ≥ maxR))]
    rw [hrec]
    dsimp only [Option.elim]
    rw [hh iter]
    rw [if_pos rfl]
    exact ih { ctx with retry_count := 0, max_retries := maxR } td (iter + 1)
      _ _ hretry hrec

/-- C10: `execute_with_retry` does not advance its attempt counter when
a registered recovery handler returns `True`; with an operation that
raises a retryable error of a kind whose handler always returns `True`
on every invocation, the loop never reaches the `max_retries` bound and
never returns a `RetryResult` — for every amount of fuel the loop is
still running. -/
theorem claim_C10_recovery_nontermination (env : RetryEnv)
    (cfg : CircuitBreakerConfig) (now : ℚ) (ctx : ErrorContext)
    (mr : Option ℕ) (cmr : ℕ) (cb : CircuitBreakerState)
    (exc : PyException) (h : ℕ → Bool)
    (hop : ∀ n, env.op n = .raises exc)
    (hcb : cb.state = .closed)
    (hretry : isRetryable (classifyException exc
      { ctx with retry_count := 0, max_retries := mr.getD cmr }) = true)
    (hmax : 1 ≤ mr.getD cmr)
    (hrec : env.recovery (mapToFailureType (classifyException exc
      { ctx with retry_count := 0, max_retries := mr.getD cmr })) = some h)
    (hh : ∀ n, h n = true) :
    ∀ fuel, executeWithRetry env cfg now ctx mr cmr fuel cb = none := by
  intro fuel
  unfold executeWithRetry
  rw [show checkCircuitBreaker cfg now cb = (true, cb) from by
    unfold checkCircuitBreaker; rw [hcb]]
  dsimp only
  rw [if_neg (by simp)]
  exact retryLoop_recovery_diverges env cfg now (mr.getD cmr) cb exc h hop
    hmax hh fuel ctx 0 0 none none hretry hrec

/-- The always-failing rate-limited operation with an always-succeeding
recovery handler used to witness C10. -/
def envC10 : RetryEnv :=
  { op := fun _ => .raises ⟨"RuntimeError", "rate limit"⟩
    recovery := fun ft =>
      if ft = .RATE_LIMITED then some (fun _ => true) else none
    stopEvent := fun _ => false
    delay := fun _ => 0 }

/-- Witness for C10: with fuel 7 (or any other amount) the call has not
returned. -/
theorem claim_C10_witness :
    (∀ n, envC10.op n = .raises ⟨"RuntimeError", "rate limit"⟩)
    ∧ isRetryable (classifyException ⟨"RuntimeError", "rate limit"⟩
        { retry_count := 0, max_retries := 3 }) = true
    ∧ executeWithRetry envC10 defaultCircuitConfig 0 {} none 3 7 {} = none :=
  ⟨fun _ => rfl, by decide,
   claim_C10_recovery_nontermination envC10 defaultCircuitConfig 0 {}
     none 3 {} ⟨"RuntimeError", "rate limit"⟩ (fun _ => true)
     (fun _ => rfl) rfl (by decide) (by decide) rfl (fun _ => rfl) 7⟩
